import Mathlib

/-!
# Verification development for `examples/tracer/main.go`

A shallow embedding of the ETW tracer example: the event callback `cb`, the
start-up sequence of `main`, and the three concurrent activities that `main`
leaves running (the flush goroutine, the capture goroutine and the interrupt
loop of the main goroutine), modelled as a step function over an explicit
state, with every externally visible call recorded in a trace of effects.

External collaborators (the `etw` session, `windows.GUIDFromString`, the
property decoder, the `flag` package) are not part of the program; their
results are inputs of the model (fields of `Env`, of `Event`, the
`ParseOutcome` of the command line, or carried by the scheduled step).

A log line is a call on the standard logger (`log.Printf`, `log.Fatalf`); a
record is a call of `enc.Encode`. With `--silent` the program points the
logger at `io.Discard` before parsing the GUID; the trace records that call
(`logSetOutputDiscard`) and the log calls after it alike.
-/

namespace Tracer

/-! ## Data model -/

/-- A Go `error` value: `none` is `nil`, `some msg` an error with text `msg`. -/
abbrev GoError := Option String

/-- A provider GUID, kept as its canonical text (what `guid.String()` prints). -/
abbrev GUID := String

/-- The part of `etw.EventHeader` the program reads: the numeric event ID (an
unsigned 16-bit field in the library, widened by `int(e.Header.ID)`), and the
remaining collaborator-defined fields, kept as one uninterpreted value. -/
structure EventHeader where
  ID : Nat
  rest : String
deriving DecidableEq, Repr

/-- Decoded event properties, name to value. -/
abbrev Props := List (String × String)

/-- An `*etw.Event` as the callback sees it: its header and the outcome of the
call `e.EventProperties()`. -/
structure Event where
  Header : EventHeader
  EventProperties : Except String Props

/-- A value stored in the output map (`interface{}` in the source). -/
inductive Value where
  | header (h : EventHeader)
  | props (p : Props)
deriving DecidableEq, Repr

/-- The output record, `map[string]interface{}`, as an association list with at
most one binding per key. -/
abbrev Record := List (String × Value)

/-- Map assignment `m[k] = v`. -/
def mapSet (m : Record) (k : String) (v : Value) : Record :=
  (k, v) :: m.filter (fun p => p.1 != k)

/-- Map lookup `m[k]`. -/
def mapGet (m : Record) (k : String) : Option Value :=
  m.lookup k

/-- Every externally visible call the program makes, in the order made. -/
inductive Effect where
  /-- The `flag` package writes an error message to stderr. -/
  | flagError (msg : String)
  /-- The `flag` package writes the usage text to stderr. -/
  | flagUsage
  /-- The call `log.SetOutput(io.Discard)`. -/
  | logSetOutputDiscard
  /-- One call of `log.Printf` (or the print half of `log.Fatalf`). -/
  | logPrintf (format : String) (args : List String)
  /-- Process exit with the given status. -/
  | osExit (status : Nat)
  /-- The call `windows.GUIDFromString(arg)`. -/
  | guidFromString (arg : String)
  /-- The call `etw.NewSession(guid, ...)`. -/
  | newSession (guid : GUID)
  /-- The call `enc.Encode(event)`. -/
  | encode (r : Record)
  /-- The call `session.FlushEvents()` and its result. -/
  | flushEvents (r : GoError)
  /-- The call `session.Process(cb)` being entered. -/
  | process
  /-- The call `session.Close()` and its result. -/
  | close (r : GoError)
deriving DecidableEq, Repr

/-- The parsed command line: the three flags and `flag.Args()`. -/
structure Flags where
  silent : Bool
  header : Bool
  id : Int
  args : List String

/-- What the call `flag.Parse()` of line 27 does with the command line. The
default flag set has the `ExitOnError` policy, so the call returns only when
every flag parsed: on `-h` or `-help`, which the program does not define, the
package writes the usage text and exits with status 0; on any other parse
error (undefined flag, malformed flag, missing or invalid flag value) it
writes the error and the usage text and exits with status 2. -/
inductive ParseOutcome where
  /-- The call returns, with the flags set and the positional arguments. -/
  | returned (f : Flags)
  /-- Help was asked for; the process ends inside `flag.Parse`. -/
  | help
  /-- A flag did not parse; the process ends inside `flag.Parse`. -/
  | failed (msg : String)

/-! ## Formatting of log lines -/

/-- Substitution of the `%s` verbs of a format by the arguments, in order. -/
def sprintfAux : List Char → List String → List Char
  | '%' :: 's' :: cs, a :: as => a.data ++ sprintfAux cs as
  | c :: cs, as => c :: sprintfAux cs as
  | [], _ => []

/-- The text of a log line, without the logger's timestamp. -/
def sprintf (format : String) (args : List String) : String :=
  ⟨sprintfAux format.data args⟩

/-- Whether `needle` occurs in `hay` as a contiguous run of characters. -/
def hasSubstr : List Char → List Char → Bool
  | [], needle => needle.isEmpty
  | c :: cs, needle => needle.isPrefixOf (c :: cs) || hasSubstr cs needle

/-! ## The event callback (lines 51-66) -/

/-- The closure `cb`: the effects of one invocation on event `e`. -/
def cb (f : Flags) (e : Event) : List Effect :=
  if 0 < f.id ∧ f.id ≠ (e.Header.ID : Int) then
    []
  else
    let event : Record := []
    let event := if f.header then mapSet event "Header" (.header e.Header) else event
    match e.EventProperties with
    | .ok data => [.encode (mapSet event "EventProperties" (.props data))]
    | .error err =>
      [.logPrintf "[ERR] Failed to enumerate event properties: %s" [err], .encode event]

/-- The callback applied to a sequence of events, one by one. -/
def feed (f : Flags) (es : List Event) : List Effect :=
  es.flatMap (cb f)

/-- The records handed to the encoder, in order. -/
def records (t : List Effect) : List Record :=
  t.filterMap (fun x => match x with
    | .encode r => some r
    | _ => none)

/-- The log calls, in order, as (format, arguments). -/
def logCalls (t : List Effect) : List (String × List String) :=
  t.filterMap (fun x => match x with
    | .logPrintf fmt as => some (fmt, as)
    | _ => none)

/-- What the specification asks of a record built from event `e` under header
flag `h`: a `Header` entry exactly when `h`, holding the event's own header; an
`EventProperties` entry exactly when enumeration succeeded, holding its data;
and no other entry. -/
def BuiltFrom (h : Bool) (e : Event) (r : Record) : Prop :=
  mapGet r "Header" = (if h then some (.header e.Header) else none) ∧
  mapGet r "EventProperties" =
    (match e.EventProperties with
     | .ok data => some (.props data)
     | .error _ => none) ∧
  ∀ k, k ≠ "Header" → k ≠ "EventProperties" → mapGet r k = none

/-! ## Start-up of `main` (lines 22-47) -/

/-- The results of the external calls `main` makes, and the program name. -/
structure Env where
  /-- The value of `filepath.Base(os.Args[0])`. -/
  progName : String
  /-- The function `windows.GUIDFromString`. -/
  parseGUID : String → Except String GUID
  /-- The error result of `etw.NewSession` for a provider. -/
  newSession : GUID → GoError
  /-- The result of the i-th call of `session.Close()`, counted from 0. -/
  closeResult : Nat → GoError

/-- The call `log.Fatalf`: a `Printf` followed by `os.Exit(1)`. -/
def logFatalf (format : String) (args : List String) : List Effect :=
  [.logPrintf format args, .osExit 1]

/-- Lines 29-47, reached when `flag.Parse()` has returned: the effects of
start-up and, when it does not end the process, the provider GUID of the
opened session. -/
def startup (env : Env) (f : Flags) : List Effect × Option GUID :=
  if f.args.length ≠ 1 then
    (logFatalf "Usage: %s [opts] <providerGUID>" [env.progName], none)
  else
    let t := if f.silent then [Effect.logSetOutputDiscard] else []
    let arg := f.args.headD ""
    match env.parseGUID arg with
    | .error err =>
      (t ++ [.guidFromString arg] ++ logFatalf "Incorrect GUID given; %s" [err], none)
    | .ok guid =>
      match env.newSession guid with
      | some err =>
        (t ++ [.guidFromString arg, .newSession guid]
           ++ logFatalf "Failed to create etw session; %s" [err], none)
      | none => (t ++ [.guidFromString arg, .newSession guid], some guid)

/-! ## The running program (lines 68-111) -/

/-- Where the main goroutine stands: in the `for range sigCh` loop, blocked in
`wg.Wait()`, or returned from `main`. -/
inductive MainPc where
  | sigLoop
  | wgWait
  | returned
deriving DecidableEq, Repr

/-- Where the capture goroutine stands: spawned, inside `session.Process(cb)`,
or past `wg.Done()`. -/
inductive CapPc where
  | spawned
  | inProcess
  | done
deriving DecidableEq, Repr

/-- State of the running program. -/
structure Sys where
  pc : MainPc
  cap : CapPc
  /-- Whether the one-slot channel `sigCh` holds a signal. -/
  sigPending : Bool
  /-- The counter of the `sync.WaitGroup`. -/
  wg : Nat
  /-- The effects since the goroutines were started. -/
  trace : List Effect
deriving DecidableEq, Repr

/-- One scheduled step: which activity moves, with the outcome of the external
call it makes where the outcome is not fixed by `Env`. -/
inductive Ev where
  /-- The OS delivers `os.Interrupt`; `signal.Notify` offers it to `sigCh`. -/
  | signal
  /-- The main goroutine receives from `sigCh` and runs one loop body. -/
  | recv
  /-- The main goroutine, blocked in `wg.Wait()`, is resumed. -/
  | wgWait
  /-- The capture goroutine logs its start line and enters `Process`. -/
  | capStart
  /-- The session, inside `Process`, invokes the callback on an event. -/
  | deliver (e : Event)
  /-- The call `Process` returns with the given result. -/
  | processReturn (r : GoError)
  /-- The flush goroutine wakes from its sleep; `FlushEvents` returns `r`. -/
  | tick (r : GoError)

/-- State right after line 97: both goroutines started, `wg.Add(1)` done. -/
def init : Sys :=
  { pc := .sigLoop, cap := .spawned, sigPending := false, wg := 1, trace := [] }

/-- Number of `session.Close()` calls in a trace. -/
def closeCount (t : List Effect) : Nat :=
  t.countP (fun x => match x with
    | .close _ => true
    | _ => false)

/-- Number of `session.FlushEvents()` calls in a trace. -/
def flushCount (t : List Effect) : Nat :=
  t.countP (fun x => match x with
    | .flushEvents _ => true
    | _ => false)

/-- Number of `session.Process` calls in a trace. -/
def processCount (t : List Effect) : Nat :=
  t.countP (fun x => match x with
    | .process => true
    | _ => false)

/-- Number of log calls with the given format in a trace. -/
def logCount (format : String) (t : List Effect) : Nat :=
  t.countP (fun x => match x with
    | .logPrintf g _ => g == format
    | _ => false)

/-- Body of the flush goroutine's loop after the sleep (lines 72-75). -/
def flushBody (r : GoError) : List Effect :=
  match r with
  | some err => [.flushEvents r, .logPrintf "[ERR] Failed to flush events: %s" [err]]
  | none => [.flushEvents r]

/-- Body of the capture goroutine after `Process` returned (lines 85-89). -/
def captureEnd (r : GoError) : List Effect :=
  match r with
  | some err => [.logPrintf "[ERR] Got error processing events: %s" [err]]
  | none => [.logPrintf "[DBG] Successfully shut down" []]

/-- One step of the running program. A step of an activity that is blocked
(or of a process that has exited) leaves the state as it is. -/
def step (env : Env) (f : Flags) (guid : GUID) (s : Sys) (ev : Ev) : Sys :=
  if s.pc = .returned then s
  else
    match ev with
    | .signal => { s with sigPending := true }
    | .recv =>
      if s.pc = .sigLoop ∧ s.sigPending then
        let r := env.closeResult (closeCount s.trace)
        let t := s.trace ++ [.logPrintf "[DBG] Shutting the session down" [], .close r]
        match r with
        | some err =>
          { s with sigPending := false,
                   trace := t ++ [.logPrintf "[ERR] (!!!) Failed to stop session: %s\n" [err]] }
        | none => { s with sigPending := false, pc := .wgWait, trace := t }
      else s
    | .wgWait =>
      if s.pc = .wgWait ∧ s.wg = 0 then
        { s with pc := .returned, trace := s.trace ++ [.osExit 0] }
      else s
    | .capStart =>
      if s.cap = .spawned then
        { s with cap := .inProcess,
                 trace := s.trace ++
                   [.logPrintf "[DBG] Starting to listen ETW events from %s" [guid], .process] }
      else s
    | .deliver e =>
      if s.cap = .inProcess then { s with trace := s.trace ++ cb f e } else s
    | .processReturn r =>
      if s.cap = .inProcess then
        { s with cap := .done, wg := s.wg - 1, trace := s.trace ++ captureEnd r }
      else s
    | .tick r => { s with trace := s.trace ++ flushBody r }

/-- The state after a schedule, from state `s`. -/
def run (env : Env) (f : Flags) (guid : GUID) (s : Sys) (sched : List Ev) : Sys :=
  sched.foldl (step env f guid) s

/-- Lines 29-111, `main` once `flag.Parse()` has returned: start-up, then
the running program under a schedule when start-up did not end the process.
The result is the trace of effects. -/
def mainParsed (env : Env) (f : Flags) (sched : List Ev) : List Effect :=
  match startup env f with
  | (t, none) => t
  | (t, some guid) => t ++ (run env f guid init sched).trace

/-- The whole of `main`, from the outcome of `flag.Parse()` on the command
line: the trace of effects. -/
def mainTrace (env : Env) (p : ParseOutcome) (sched : List Ev) : List Effect :=
  match p with
  | .help => [.flagUsage, .osExit 0]
  | .failed msg => [.flagError msg, .flagUsage, .osExit 2]
  | .returned f => mainParsed env f sched

/-- Whether a successful `session.Close()` is in the trace. -/
abbrev closeSucceeded (t : List Effect) : Prop :=
  Effect.close none ∈ t

/-- Whether the callback lets the event through its ID test (line 52). -/
def accepts (f : Flags) (e : Event) : Bool :=
  !decide (0 < f.id ∧ f.id ≠ (e.Header.ID : Int))

/-! ## Auxiliary definitions: counters, invariants, sample inputs -/

/-- Three events with IDs 5, 7, 5; enumeration fails on the last. -/
def sampleEvents : List Event :=
  [⟨⟨5, "first"⟩, .ok [("Name", "a")]⟩, ⟨⟨7, "second"⟩, .ok []⟩,
   ⟨⟨5, "third"⟩, .error "failed to get event metadata"⟩]

/-- An accepted event with ID 7 whose property enumeration fails. -/
def sampleFailing : Event :=
  ⟨⟨7, "hdr"⟩, .error "failed to get event metadata"⟩

/-- Flags `--header` with the ID filter left at its default. -/
def sampleFlags : Flags :=
  ⟨false, true, -1, ["provider"]⟩

/-- Number of successful `session.Close()` calls in a trace. -/
def okCloses (t : List Effect) : Nat :=
  t.count (Effect.close none)

/-- Number of start-up calls (`GUIDFromString`, `NewSession`) in a trace. -/
def openCount (t : List Effect) : Nat :=
  t.countP (fun x => match x with
    | .newSession _ => true
    | .guidFromString _ => true
    | _ => false)

/-- Number of failed `session.Close()` calls in a trace. -/
def failedCloses (t : List Effect) : Nat :=
  t.countP (fun x => match x with
    | .close (some _) => true
    | _ => false)

/-- What holds in every state the running program can reach. -/
structure Inv (s : Sys) : Prop where
  wg_eq : s.wg = if s.cap = .done then 0 else 1
  ret_wg : s.pc = .returned → s.wg = 0
  ok_eq : okCloses s.trace = if s.pc = .sigLoop then 0 else 1
  split_eq : closeCount s.trace = failedCloses s.trace + okCloses s.trace
  log_fail : logCount "[ERR] (!!!) Failed to stop session: %s\n" s.trace = failedCloses s.trace
  log_shut : logCount "[DBG] Shutting the session down" s.trace = closeCount s.trace
  proc_eq : processCount s.trace = if s.cap = .spawned then 0 else 1
  exit_ret : ∀ k, Effect.osExit k ∈ s.trace → k = 0 ∧ s.pc = .returned
  ret_last : s.pc = .returned → s.trace.getLast? = some (.osExit 0)
  no_open : openCount s.trace = 0

/-- An environment in which the provider text parses as itself, the session
opens, and every `Close` succeeds. -/
def envCloseOk : Env :=
  { progName := "tracer", parseGUID := fun a => .ok a, newSession := fun _ => none,
    closeResult := fun _ => none }

/-- An environment like `envCloseOk`, except that the first `Close` fails. -/
def envCloseFailsOnce : Env :=
  { progName := "tracer", parseGUID := fun a => .ok a, newSession := fun _ => none,
    closeResult := fun i => if i = 0 then some "session busy" else none }

/-- With `Close` failing on its first `n` calls and succeeding on the next:
inside the interrupt loop at most `n` calls were made, outside it exactly
`n + 1`. -/
def CloseBound (n : Nat) (s : Sys) : Prop :=
  if s.pc = .sigLoop then closeCount s.trace ≤ n else closeCount s.trace = n + 1

/-- The schedule of `k` interrupts, each received by the main goroutine. -/
def interrupts (k : Nat) : List Ev :=
  (List.replicate k [Ev.signal, Ev.recv]).flatten

/-- A complete run with one retry: the capture goroutine starts, the first
interrupt meets a failing `Close`, the second a successful one, `Process`
returns, `wg.Wait()` is resumed. -/
def retryOnceSchedule : List Ev :=
  [.capStart, .signal, .recv, .signal, .recv, .processReturn none, .wgWait]

/-- Number of wake-ups of the flush goroutine in a schedule. -/
def tickCount (sched : List Ev) : Nat :=
  sched.countP (fun ev => match ev with
    | .tick _ => true
    | _ => false)

/-- Number of wake-ups of the flush goroutine whose `FlushEvents` fails. -/
def failedTickCount (sched : List Ev) : Nat :=
  sched.countP (fun ev => match ev with
    | .tick (some _) => true
    | _ => false)

/-- An environment in which no text parses as a GUID. -/
def envBadGuid : Env :=
  { progName := "tracer", parseGUID := fun _ => .error "invalid GUID",
    newSession := fun _ => none, closeResult := fun _ => none }

/-- The one-slot channel `sigCh` with a receiver that stays in its loop:
whether a signal is pending and how many have been received. A delivered
signal fills the slot (a second one before the next receive is dropped by
`signal.Notify`); a receive takes the pending signal, if there is one. -/
def chanStep (c : Bool × Nat) : Ev → Bool × Nat
  | .signal => (true, c.2)
  | .recv => if c.1 then (false, c.2 + 1) else c
  | _ => c

/-- Number of interrupts a receiver that stays in its loop takes from `sigCh`
under a schedule. -/
def receivedInterrupts (sched : List Ev) : Nat :=
  (sched.foldl chanStep (false, 0)).2

/-- Number of interrupts the OS delivers in a schedule. -/
def signalCount (sched : List Ev) : Nat :=
  sched.countP (fun ev => match ev with
    | .signal => true
    | _ => false)

/-- How the running program stands to the channel on its own, when `Close`
fails on its first `n` calls and succeeds on the next: inside the interrupt
loop the pending flag agrees and every received interrupt has met one `Close`
call; outside it `n + 1` calls were made, on the first `n + 1` receipts. -/
def ChanRel (n : Nat) (s : Sys) (c : Bool × Nat) : Prop :=
  if s.pc = .sigLoop then s.sigPending = c.1 ∧ closeCount s.trace = c.2 ∧ c.2 ≤ n
  else closeCount s.trace = n + 1 ∧ n + 1 ≤ c.2

/-! ## Lemmas on the callback -/

theorem cb_of_not_accepts (f : Flags) (e : Event) (h : accepts f e = false) :
    cb f e = [] := by
  have h1 : 0 < f.id ∧ f.id ≠ (e.Header.ID : Int) := by
    simpa [accepts] using h
  simp [cb, h1]

theorem records_cb_of_accepts (f : Flags) (e : Event) (h : accepts f e = true) :
    ∃ r, records (cb f e) = [r] ∧ BuiltFrom f.header e r := by
  have h1 : ¬ (0 < f.id ∧ f.id ≠ (e.Header.ID : Int)) := by
    intro hc
    simp [accepts, hc] at h
  obtain ⟨hd, pr⟩ := e
  have key : ∀ (k a : String), k ≠ a → (k == a) = false := by
    intro k a hka
    simpa using hka
  cases hh : f.header <;> cases pr <;>
    simp only [cb, h1, hh, records, if_false, if_true, List.filterMap_cons,
      List.filterMap_nil, Bool.false_eq_true] <;>
    refine ⟨_, rfl, by simp [mapGet, mapSet, List.lookup], by simp [mapGet, mapSet, List.lookup], ?_⟩ <;>
    intro k h2 h3 <;>
    simp [mapGet, mapSet, List.lookup, key k _ h2, key k _ h3]

theorem records_append (t u : List Effect) :
    records (t ++ u) = records t ++ records u := by
  simp [records]

theorem feed_cons (f : Flags) (e : Event) (es : List Event) :
    feed f (e :: es) = cb f e ++ feed f es := by
  simp [feed]

theorem records_feed_builtFrom (f : Flags) (es : List Event) :
    List.Forall₂ (BuiltFrom f.header) (es.filter (accepts f)) (records (feed f es)) := by
  induction es with
  | nil => simp [feed, records]
  | cons e es ih =>
    rw [feed_cons, records_append]
    cases h : accepts f e
    · rw [cb_of_not_accepts f e h, List.filter_cons_of_neg (by simp [h])]
      simpa [records] using ih
    · obtain ⟨r, hr, hb⟩ := records_cb_of_accepts f e h
      rw [hr, List.filter_cons_of_pos (by simp [h])]
      exact List.Forall₂.cons hb ih

theorem mem_records {t : List Effect} {r : Record} (h : Effect.encode r ∈ t) :
    r ∈ records t := by
  simp only [records, List.mem_filterMap]
  exact ⟨_, h, rfl⟩

theorem encode_mem_cb (f : Flags) (e : Event) (r : Record) (h : Effect.encode r ∈ cb f e) :
    accepts f e = true ∧ BuiltFrom f.header e r := by
  cases ha : accepts f e
  · rw [cb_of_not_accepts f e ha] at h
    simp at h
  · obtain ⟨r0, hr, hb⟩ := records_cb_of_accepts f e ha
    have := mem_records h
    rw [hr] at this
    simp at this
    subst this
    exact ⟨rfl, hb⟩

theorem encode_mem_feed (f : Flags) (es : List Event) (r : Record)
    (h : Effect.encode r ∈ feed f es) : ∃ e ∈ es, Effect.encode r ∈ cb f e := by
  simpa [feed, List.mem_flatMap] using h

theorem accepts_of_nonpos (f : Flags) (e : Event) (h : f.id ≤ 0) : accepts f e = true := by
  simp only [accepts, Bool.not_eq_true', decide_eq_false_iff_not]
  intro hc
  omega

theorem accepts_of_pos (f : Flags) (e : Event) (h : 0 < f.id) :
    accepts f e = decide ((e.Header.ID : Int) = f.id) := by
  by_cases hc : (e.Header.ID : Int) = f.id
  · simp [accepts, hc]
  · have : f.id ≠ (e.Header.ID : Int) := fun h => hc h.symm
    simp [accepts, hc, h, this]

theorem forall2_getElem {α β : Type} {R : α → β → Prop} {l₁ : List α} {l₂ : List β}
    (h : List.Forall₂ R l₁ l₂) :
    ∀ (i : Nat) (a : α), l₁[i]? = some a → ∃ b, l₂[i]? = some b ∧ R a b := by
  induction h with
  | nil => intro i a ha; simp at ha
  | cons hab _ ih =>
    intro i a ha
    cases i with
    | zero =>
      simp at ha
      subst ha
      exact ⟨_, by simp, hab⟩
    | succ n =>
      simp at ha
      obtain ⟨b, hb, hr⟩ := ih n a ha
      exact ⟨b, by simpa using hb, hr⟩

/-! ## Claims on the callback -/

/-- C1: with a positive filter value `k`, for every header flag and every
sequence of events, the records written to the encoder correspond one to one,
in order, to the events whose `Header.ID` equals `k`; an event with another ID
produces no effect at all (no record, no log line), an event with ID `k`
exactly one record. For IDs 5, 7, 5 with `--id 5 --header` exactly two records
are written, carrying the headers of the first and third event. -/
theorem cb_positive_id_filter (k : Int) (hk : 0 < k) (silent header : Bool)
    (args : List String) (es : List Event) :
    List.Forall₂ (BuiltFrom header)
        (es.filter (fun e => decide ((e.Header.ID : Int) = k)))
        (records (feed ⟨silent, header, k, args⟩ es)) ∧
    (∀ e : Event, (e.Header.ID : Int) ≠ k → cb ⟨silent, header, k, args⟩ e = []) ∧
    (∀ e : Event, (e.Header.ID : Int) = k →
        (records (cb ⟨silent, header, k, args⟩ e)).length = 1) ∧
    (∀ (r1 r2 r3 : String) (p1 p2 p3 : Except String Props),
        (records (feed ⟨silent, true, 5, args⟩
            [⟨⟨5, r1⟩, p1⟩, ⟨⟨7, r2⟩, p2⟩, ⟨⟨5, r3⟩, p3⟩])).map
          (fun r => mapGet r "Header") =
        [some (.header ⟨5, r1⟩), some (.header ⟨5, r3⟩)]) := by
  have hacc : ∀ e : Event, accepts ⟨silent, header, k, args⟩ e
      = decide ((e.Header.ID : Int) = k) :=
    fun e => accepts_of_pos ⟨silent, header, k, args⟩ e hk
  refine ⟨?_, ?_, ?_, ?_⟩
  · have h := records_feed_builtFrom ⟨silent, header, k, args⟩ es
    have hf : (accepts ⟨silent, header, k, args⟩)
        = (fun e : Event => decide ((e.Header.ID : Int) = k)) := funext hacc
    rw [hf] at h
    exact h
  · intro e he
    apply cb_of_not_accepts
    rw [hacc]
    simp [he]
  · intro e he
    obtain ⟨r, hr, _⟩ := records_cb_of_accepts ⟨silent, header, k, args⟩ e
      (by rw [hacc]; simp [he])
    rw [hr]
    rfl
  · intro r1 r2 r3 p1 p2 p3
    cases p1 <;> cases p3 <;> cases p2 <;>
      simp [feed, cb, records, mapGet, mapSet, List.lookup]

/-- Instance of C1 at `--id 5 --header` on events with IDs 5, 7, 5. -/
theorem cb_positive_id_filter_witness :
    (0 : Int) < 5 ∧
    List.Forall₂ (BuiltFrom true)
        (sampleEvents.filter (fun e => decide ((e.Header.ID : Int) = 5)))
        (records (feed ⟨false, true, 5, ["provider"]⟩ sampleEvents)) :=
  ⟨by decide, (cb_positive_id_filter 5 (by decide) false true ["provider"] sampleEvents).1⟩

/-- C2: with `--id` at its default -1, every event yields exactly one record,
whether or not its property enumeration succeeds; the records come in the
order of the events, as many as there are events, the i-th built from the
i-th event. -/
theorem cb_default_emits_every_event (silent header : Bool) (args : List String)
    (es : List Event) :
    List.Forall₂ (BuiltFrom header) es (records (feed ⟨silent, header, -1, args⟩ es)) ∧
    (records (feed ⟨silent, header, -1, args⟩ es)).length = es.length ∧
    (∀ (i : Nat) (e : Event), es[i]? = some e →
        ∃ r, (records (feed ⟨silent, header, -1, args⟩ es))[i]? = some r ∧
          BuiltFrom header e r) ∧
    (∀ e : Event, (records (cb ⟨silent, header, -1, args⟩ e)).length = 1) := by
  have hacc : ∀ e : Event, accepts ⟨silent, header, -1, args⟩ e = true :=
    fun e => accepts_of_nonpos ⟨silent, header, -1, args⟩ e (by show (-1 : Int) ≤ 0; decide)
  have h := records_feed_builtFrom ⟨silent, header, -1, args⟩ es
  have hf : es.filter (accepts ⟨silent, header, -1, args⟩) = es :=
    List.filter_eq_self.mpr (fun e _ => hacc e)
  rw [hf] at h
  refine ⟨h, h.length_eq.symm, forall2_getElem h, ?_⟩
  intro e
  obtain ⟨r, hr, _⟩ := records_cb_of_accepts ⟨silent, header, -1, args⟩ e (hacc e)
  rw [hr]
  rfl

/-- C3: a record emitted by the callback has a `Header` entry if and only if
the header flag is set, and the entry, when present, is the event's own
header; so over any sequence of events, no emitted record has the entry when
the flag is off and every emitted record has it when the flag is on. -/
theorem cb_header_entry_iff_flag (f : Flags) (e : Event) (r : Record)
    (h : Effect.encode r ∈ cb f e) :
    ((mapGet r "Header").isSome = true ↔ f.header = true) ∧
    (∀ v, mapGet r "Header" = some v → v = .header e.Header) ∧
    (f.header = true → mapGet r "Header" = some (.header e.Header)) ∧
    (∀ (es : List Event) (r2 : Record), Effect.encode r2 ∈ feed f es →
        ((mapGet r2 "Header").isSome = true ↔ f.header = true)) := by
  have one : ∀ (e : Event) (r : Record), Effect.encode r ∈ cb f e →
      mapGet r "Header" = (if f.header then some (.header e.Header) else none) :=
    fun e r h => (encode_mem_cb f e r h).2.1
  have hr := one e r h
  refine ⟨?_, ?_, ?_, ?_⟩
  · rw [hr]; cases f.header <;> simp
  · intro v hv
    rw [hr] at hv
    cases hh : f.header <;> simp [hh] at hv
    exact hv.symm
  · intro hh
    rw [hr, hh]; rfl
  · intro es r2 h2
    obtain ⟨e2, _, h3⟩ := encode_mem_feed f es r2 h2
    rw [one e2 r2 h3]
    cases f.header <;> simp

/-- Instance of C3 with the header flag on, at the one record of a failing
event. -/
theorem cb_header_entry_iff_flag_witness :
    Effect.encode [("Header", .header ⟨7, "hdr"⟩)] ∈ cb sampleFlags sampleFailing ∧
    ((mapGet [("Header", .header ⟨7, "hdr"⟩)] "Header").isSome = true ↔
      sampleFlags.header = true) :=
  ⟨by decide, (cb_header_entry_iff_flag sampleFlags sampleFailing _ (by decide)).1⟩

/-- C4, as the claim states it, fails: the one log line written for an
accepted event with ID 7 whose enumeration fails is the format filled with
the error text, and the event ID does not occur in it. -/
theorem cb_failure_log_lacks_event_id :
    accepts sampleFlags sampleFailing = true ∧
    (logCalls (cb sampleFlags sampleFailing)).map (fun c => sprintf c.1 c.2) =
      ["[ERR] Failed to enumerate event properties: failed to get event metadata"] ∧
    (logCalls (cb sampleFlags sampleFailing)).all (fun c =>
      !hasSubstr (sprintf c.1 c.2).data (toString sampleFailing.Header.ID).data) = true := by
  decide

/-- C4, amended: for an accepted event whose property enumeration fails with
error `err`, the callback makes exactly one log call, with the fixed format
and `err` as its only argument (the event ID is not part of it), and still
emits exactly one record, without `EventProperties` entry and with the
`Header` entry exactly when the header flag is on; when enumeration succeeds
there is no log call and the record holds the enumerated data; an emitted
record has an `EventProperties` entry if and only if enumeration succeeded. -/
theorem cb_enumeration_failure_logged_and_emitted (f : Flags) (e : Event)
    (h : accepts f e = true) :
    (∀ err, e.EventProperties = .error err →
      ∃ r, cb f e =
          [.logPrintf "[ERR] Failed to enumerate event properties: %s" [err], .encode r] ∧
        mapGet r "EventProperties" = none ∧
        mapGet r "Header" = (if f.header then some (.header e.Header) else none) ∧
        ∀ k, k ≠ "Header" → mapGet r k = none) ∧
    (∀ data, e.EventProperties = .ok data →
      ∃ r, cb f e = [.encode r] ∧ mapGet r "EventProperties" = some (.props data)) ∧
    (∀ r, Effect.encode r ∈ cb f e →
      ((mapGet r "EventProperties").isSome = true ↔ ∃ data, e.EventProperties = .ok data)) := by
  have h1 : ¬ (0 < f.id ∧ f.id ≠ (e.Header.ID : Int)) := by
    intro hc
    simp [accepts, hc] at h
  have key : ∀ (k a : String), k ≠ a → (k == a) = false := by
    intro k a hka
    simpa using hka
  obtain ⟨hd, pr⟩ := e
  refine ⟨?_, ?_, ?_⟩
  · intro err he
    simp only at he
    subst he
    cases hh : f.header
    · refine ⟨[], by simp [cb, h1, hh], rfl, rfl, fun k _ => rfl⟩
    · refine ⟨[("Header", .header hd)], by simp [cb, h1, hh, mapSet], rfl, rfl, ?_⟩
      intro k hk
      simp [mapGet, List.lookup, key k _ hk]
  · intro data he
    simp only at he
    subst he
    cases hh : f.header
    · exact ⟨mapSet [] "EventProperties" (.props data), by simp [cb, h1, hh],
        by simp [mapGet, mapSet, List.lookup]⟩
    · exact ⟨mapSet (mapSet [] "Header" (.header hd)) "EventProperties" (.props data),
        by simp [cb, h1, hh], by simp [mapGet, mapSet, List.lookup]⟩
  · intro r hr
    have hb := (encode_mem_cb f ⟨hd, pr⟩ r hr).2.2.1
    rw [hb]
    cases pr <;> simp

/-- Instance of the amended C4 at an accepted event whose enumeration
fails. -/
theorem cb_enumeration_failure_logged_and_emitted_witness :
    accepts sampleFlags sampleFailing = true ∧
    ∃ r, cb sampleFlags sampleFailing =
        [.logPrintf "[ERR] Failed to enumerate event properties: %s"
           ["failed to get event metadata"], .encode r] ∧
      mapGet r "EventProperties" = none ∧
      mapGet r "Header" = (if sampleFlags.header then some (.header sampleFailing.Header)
        else none) ∧
      ∀ k, k ≠ "Header" → mapGet r k = none :=
  ⟨by decide,
   (cb_enumeration_failure_logged_and_emitted sampleFlags sampleFailing (by decide)).1
     "failed to get event metadata" rfl⟩

/-- C10: for every filter value `k ≤ 0` (the default -1, 0, any negative
number) the callback filters nothing: it behaves on every sequence of events
exactly as with the default, every event is accepted and yields exactly one
record whatever its ID; so `--id 0` emits an event with ID 3 as well as one
with ID 0. -/
theorem cb_nonpositive_id_no_filter (k : Int) (hk : k ≤ 0) (silent header : Bool)
    (args : List String) (es : List Event) :
    List.Forall₂ (BuiltFrom header) es (records (feed ⟨silent, header, k, args⟩ es)) ∧
    (records (feed ⟨silent, header, k, args⟩ es)).length = es.length ∧
    feed ⟨silent, header, k, args⟩ es = feed ⟨silent, header, -1, args⟩ es ∧
    (∀ e : Event, (records (cb ⟨silent, header, k, args⟩ e)).length = 1) ∧
    (∀ (r0 r3 : String) (p0 p3 : Except String Props),
        (records (feed ⟨silent, header, 0, args⟩ [⟨⟨0, r0⟩, p0⟩, ⟨⟨3, r3⟩, p3⟩])).length
          = 2) := by
  have hacc : ∀ (k : Int), k ≤ 0 → ∀ e : Event, accepts ⟨silent, header, k, args⟩ e = true :=
    fun k hk e => accepts_of_nonpos ⟨silent, header, k, args⟩ e hk
  have hall : ∀ (k : Int), k ≤ 0 → ∀ es : List Event,
      List.Forall₂ (BuiltFrom header) es (records (feed ⟨silent, header, k, args⟩ es)) := by
    intro k hk es
    have h := records_feed_builtFrom ⟨silent, header, k, args⟩ es
    have hf : es.filter (accepts ⟨silent, header, k, args⟩) = es :=
      List.filter_eq_self.mpr (fun e _ => hacc k hk e)
    rw [hf] at h
    exact h
  refine ⟨hall k hk es, (hall k hk es).length_eq.symm, ?_, ?_, ?_⟩
  · have hcb : ∀ e : Event, cb ⟨silent, header, k, args⟩ e = cb ⟨silent, header, -1, args⟩ e := by
      intro e
      have h1 : ¬ (0 < k ∧ k ≠ (e.Header.ID : Int)) := fun hc => by omega
      simp [cb, h1]
    have hfun : cb ⟨silent, header, k, args⟩ = cb ⟨silent, header, -1, args⟩ := funext hcb
    simp [feed, hfun]
  · intro e
    obtain ⟨r, hr, _⟩ := records_cb_of_accepts ⟨silent, header, k, args⟩ e (hacc k hk e)
    rw [hr]
    rfl
  · intro r0 r3 p0 p3
    exact (hall 0 (le_refl 0) _).length_eq.symm

/-- Instance of C10 at `--id 0` on events with IDs 5, 7, 5: three records. -/
theorem cb_nonpositive_id_no_filter_witness :
    (0 : Int) ≤ 0 ∧ (records (feed ⟨false, true, 0, ["provider"]⟩ sampleEvents)).length
      = sampleEvents.length :=
  ⟨by decide, (cb_nonpositive_id_no_filter 0 (by decide) false true ["provider"] sampleEvents).2.1⟩

/-! ## Invariants of the running program -/

theorem cb_effects (f : Flags) (e : Event) :
    ∀ x ∈ cb f e,
      (∃ a, x = .logPrintf "[ERR] Failed to enumerate event properties: %s" a) ∨
      ∃ r, x = .encode r := by
  intro x hx
  obtain ⟨hd, pr⟩ := e
  by_cases hc : 0 < f.id ∧ f.id ≠ (hd.ID : Int)
  · simp [cb, hc] at hx
  · cases hh : f.header <;> cases pr <;> simp [cb, hc, hh] at hx
    · rcases hx with rfl | rfl
      · exact Or.inl ⟨_, rfl⟩
      · exact Or.inr ⟨_, rfl⟩
    · exact Or.inr ⟨_, hx⟩
    · rcases hx with rfl | rfl
      · exact Or.inl ⟨_, rfl⟩
      · exact Or.inr ⟨_, rfl⟩
    · exact Or.inr ⟨_, hx⟩

theorem closeCount_cb (f : Flags) (e : Event) : closeCount (cb f e) = 0 := by
  unfold closeCount
  rw [List.countP_eq_zero]
  intro x hx
  rcases cb_effects f e x hx with ⟨a, rfl⟩ | ⟨r, rfl⟩ <;> simp

theorem okCloses_cb (f : Flags) (e : Event) : okCloses (cb f e) = 0 := by
  unfold okCloses
  rw [List.count_eq_zero]
  intro hx
  rcases cb_effects f e _ hx with ⟨a, h⟩ | ⟨r, h⟩ <;> simp at h

theorem failedCloses_cb (f : Flags) (e : Event) : failedCloses (cb f e) = 0 := by
  unfold failedCloses
  rw [List.countP_eq_zero]
  intro x hx
  rcases cb_effects f e x hx with ⟨a, rfl⟩ | ⟨r, rfl⟩ <;> simp

theorem flushCount_cb (f : Flags) (e : Event) : flushCount (cb f e) = 0 := by
  unfold flushCount
  rw [List.countP_eq_zero]
  intro x hx
  rcases cb_effects f e x hx with ⟨a, rfl⟩ | ⟨r, rfl⟩ <;> simp

theorem processCount_cb (f : Flags) (e : Event) : processCount (cb f e) = 0 := by
  unfold processCount
  rw [List.countP_eq_zero]
  intro x hx
  rcases cb_effects f e x hx with ⟨a, rfl⟩ | ⟨r, rfl⟩ <;> simp

theorem openCount_cb (f : Flags) (e : Event) : openCount (cb f e) = 0 := by
  unfold openCount
  rw [List.countP_eq_zero]
  intro x hx
  rcases cb_effects f e x hx with ⟨a, rfl⟩ | ⟨r, rfl⟩ <;> simp

theorem logCount_cb (fmt : String) (f : Flags) (e : Event)
    (h : fmt ≠ "[ERR] Failed to enumerate event properties: %s") :
    logCount fmt (cb f e) = 0 := by
  unfold logCount
  rw [List.countP_eq_zero]
  intro x hx
  rcases cb_effects f e x hx with ⟨a, rfl⟩ | ⟨r, rfl⟩
  · simpa using fun hc => h hc.symm
  · simp

theorem not_mem_cb (f : Flags) (e : Event) (x : Effect)
    (h1 : ∀ a b, x ≠ .logPrintf a b) (h2 : ∀ r, x ≠ .encode r) : x ∉ cb f e := by
  intro hx
  rcases cb_effects f e x hx with ⟨a, h⟩ | ⟨r, h⟩
  · exact h1 _ _ h
  · exact h2 _ h

theorem closeCount_append (t u : List Effect) :
    closeCount (t ++ u) = closeCount t + closeCount u := by
  simp [closeCount]

theorem okCloses_append (t u : List Effect) :
    okCloses (t ++ u) = okCloses t + okCloses u := by
  simp [okCloses]

theorem failedCloses_append (t u : List Effect) :
    failedCloses (t ++ u) = failedCloses t + failedCloses u := by
  simp [failedCloses]

theorem flushCount_append (t u : List Effect) :
    flushCount (t ++ u) = flushCount t + flushCount u := by
  simp [flushCount]

theorem processCount_append (t u : List Effect) :
    processCount (t ++ u) = processCount t + processCount u := by
  simp [processCount]

theorem openCount_append (t u : List Effect) :
    openCount (t ++ u) = openCount t + openCount u := by
  simp [openCount]

theorem openCount_cons (x : Effect) (t : List Effect) :
    openCount (x :: t) = openCount t + (match x with
      | .newSession _ => 1
      | .guidFromString _ => 1
      | _ => 0) := by
  cases x <;> simp [openCount]

@[simp] theorem openCount_nil : openCount [] = 0 := rfl

theorem logCount_append (fmt : String) (t u : List Effect) :
    logCount fmt (t ++ u) = logCount fmt t + logCount fmt u := by
  simp [logCount]

theorem closeCount_cons (x : Effect) (t : List Effect) :
    closeCount (x :: t) = closeCount t + (match x with
      | .close _ => 1
      | _ => 0) := by
  cases x <;> simp [closeCount]

theorem okCloses_cons (x : Effect) (t : List Effect) :
    okCloses (x :: t) = okCloses t + (if x = .close none then 1 else 0) := by
  by_cases h : x = .close none
  · subst h; simp [okCloses]
  · have h2 : ¬ (Effect.close none = x) := fun hc => h hc.symm
    simp [okCloses, List.count_cons, h, h2]

theorem failedCloses_cons (x : Effect) (t : List Effect) :
    failedCloses (x :: t) = failedCloses t + (match x with
      | .close (some _) => 1
      | _ => 0) := by
  rcases x with _ | _ | _ | _ | _ | _ | _ | _ | _ | _ | (_ | _) <;> simp [failedCloses]

theorem flushCount_cons (x : Effect) (t : List Effect) :
    flushCount (x :: t) = flushCount t + (match x with
      | .flushEvents _ => 1
      | _ => 0) := by
  cases x <;> simp [flushCount]

theorem processCount_cons (x : Effect) (t : List Effect) :
    processCount (x :: t) = processCount t + (match x with
      | .process => 1
      | _ => 0) := by
  cases x <;> simp [processCount]

theorem logCount_cons (fmt : String) (x : Effect) (t : List Effect) :
    logCount fmt (x :: t) = logCount fmt t + (match x with
      | .logPrintf g _ => if g = fmt then 1 else 0
      | _ => 0) := by
  cases x <;> simp [logCount, List.countP_cons]

@[simp] theorem closeCount_nil : closeCount [] = 0 := rfl

@[simp] theorem okCloses_nil : okCloses [] = 0 := rfl

@[simp] theorem failedCloses_nil : failedCloses [] = 0 := rfl

@[simp] theorem flushCount_nil : flushCount [] = 0 := rfl

@[simp] theorem processCount_nil : processCount [] = 0 := rfl

@[simp] theorem logCount_nil (fmt : String) : logCount fmt [] = 0 := rfl

theorem inv_init : Inv init := by
  constructor <;> simp [init]

theorem inv_step (env : Env) (f : Flags) (guid : GUID) (s : Sys) (ev : Ev) (h : Inv s) :
    Inv (step env f guid s ev) := by
  by_cases hpc : s.pc = .returned
  · have hs : step env f guid s ev = s := by simp [step, hpc]
    rw [hs]; exact h
  · obtain ⟨h1, h2, h3, h4, h5, h6, h7, h8, h9, h10⟩ := h
    have h8n : ∀ k, Effect.osExit k ∉ s.trace := fun k hk => hpc (h8 k hk).2
    cases ev with
    | signal =>
      simp only [step, hpc, if_false]
      exact ⟨h1, h2, h3, h4, h5, h6, h7, h8, h9, h10⟩
    | recv =>
      by_cases hc : s.pc = .sigLoop ∧ s.sigPending = true
      · cases hr : env.closeResult (closeCount s.trace) with
        | none =>
          simp only [step, hpc, hc, hr, if_false, if_true, and_self]
          constructor <;>
            simp [closeCount_append, okCloses_append, failedCloses_append, logCount_append,
              processCount_append, closeCount_cons, okCloses_cons, failedCloses_cons,
              logCount_cons, processCount_cons, openCount_append, openCount_cons, hc.1,
              h1, h3, h4, h5, h6, h7, h8n, h10]
        | some err =>
          simp only [step, hpc, hc, hr, if_false, if_true, and_self]
          constructor <;>
            simp [closeCount_append, okCloses_append, failedCloses_append, logCount_append,
              processCount_append, closeCount_cons, okCloses_cons, failedCloses_cons,
              logCount_cons, processCount_cons, openCount_append, openCount_cons, hc.1,
              h1, h3, h4, h5, h6, h7, h8n, h10]
      · have hs : step env f guid s .recv = s := by simp [step, hpc, hc]
        rw [hs]
        exact ⟨h1, h2, h3, h4, h5, h6, h7, h8, h9, h10⟩
    | wgWait =>
      by_cases hc : s.pc = .wgWait ∧ s.wg = 0
      · simp only [step, hpc, hc, if_false, if_true, and_self]
        have hcap : s.cap = .done := by
          by_contra hcap
          have := hc.2
          rw [h1] at this
          simp [hcap] at this
        constructor <;>
          simp [closeCount_append, okCloses_append, failedCloses_append, logCount_append,
              processCount_append, closeCount_cons, okCloses_cons, failedCloses_cons,
              logCount_cons, processCount_cons, openCount_append, openCount_cons, closeCount_cb,
              okCloses_cb, failedCloses_cb, processCount_cb, openCount_cb, logCount_cb,
              not_mem_cb, captureEnd, flushBody, hpc, h1, h3, h4, h5, h6, h7, h8n, h10]
        all_goals simp_all
      · have hs : step env f guid s .wgWait = s := by simp [step, hpc, hc]
        rw [hs]
        exact ⟨h1, h2, h3, h4, h5, h6, h7, h8, h9, h10⟩
    | capStart =>
      by_cases hc : s.cap = .spawned
      · simp only [step, hpc, hc, if_false, if_true]
        constructor <;>
          simp [closeCount_append, okCloses_append, failedCloses_append, logCount_append,
              processCount_append, closeCount_cons, okCloses_cons, failedCloses_cons,
              logCount_cons, processCount_cons, openCount_append, openCount_cons, closeCount_cb,
              okCloses_cb, failedCloses_cb, processCount_cb, openCount_cb, logCount_cb,
              not_mem_cb, captureEnd, flushBody, hpc, h1, h3, h4, h5, h6, h7, h8n, h10]
        all_goals simp_all
      · have hs : step env f guid s .capStart = s := by simp [step, hpc, hc]
        rw [hs]
        exact ⟨h1, h2, h3, h4, h5, h6, h7, h8, h9, h10⟩
    | deliver e =>
      by_cases hc : s.cap = .inProcess
      · simp only [step, hpc, hc, if_false, if_true]
        constructor <;>
          simp [closeCount_append, okCloses_append, failedCloses_append, logCount_append,
              processCount_append, closeCount_cons, okCloses_cons, failedCloses_cons,
              logCount_cons, processCount_cons, openCount_append, openCount_cons, closeCount_cb,
              okCloses_cb, failedCloses_cb, processCount_cb, openCount_cb, logCount_cb,
              not_mem_cb, captureEnd, flushBody, hpc, h1, h3, h4, h5, h6, h7, h8n, h10]
        all_goals simp_all
      · have hs : step env f guid s (.deliver e) = s := by simp [step, hpc, hc]
        rw [hs]
        exact ⟨h1, h2, h3, h4, h5, h6, h7, h8, h9, h10⟩
    | processReturn r =>
      by_cases hc : s.cap = .inProcess
      · simp only [step, hpc, hc, if_false, if_true]
        cases r <;> constructor <;>
          simp [closeCount_append, okCloses_append, failedCloses_append, logCount_append,
              processCount_append, closeCount_cons, okCloses_cons, failedCloses_cons,
              logCount_cons, processCount_cons, openCount_append, openCount_cons, closeCount_cb,
              okCloses_cb, failedCloses_cb, processCount_cb, openCount_cb, logCount_cb,
              not_mem_cb, captureEnd, flushBody, hpc, h1, h3, h4, h5, h6, h7, h8n, h10]
        all_goals simp_all
      · have hs : step env f guid s (.processReturn r) = s := by simp [step, hpc, hc]
        rw [hs]
        exact ⟨h1, h2, h3, h4, h5, h6, h7, h8, h9, h10⟩
    | tick r =>
      simp only [step, hpc, if_false]
      cases r <;> constructor <;>
        simp [closeCount_append, okCloses_append, failedCloses_append, logCount_append,
              processCount_append, closeCount_cons, okCloses_cons, failedCloses_cons,
              logCount_cons, processCount_cons, openCount_append, openCount_cons, closeCount_cb,
              okCloses_cb, failedCloses_cb, processCount_cb, openCount_cb, logCount_cb,
              not_mem_cb, captureEnd, flushBody, hpc, h1, h3, h4, h5, h6, h7, h8n, h10]

/-! ## Schedules -/

theorem run_nil (env : Env) (f : Flags) (guid : GUID) (s : Sys) :
    run env f guid s [] = s := rfl

theorem run_cons (env : Env) (f : Flags) (guid : GUID) (s : Sys) (ev : Ev) (sched : List Ev) :
    run env f guid s (ev :: sched) = run env f guid (step env f guid s ev) sched := rfl

theorem run_append (env : Env) (f : Flags) (guid : GUID) (s : Sys) (a b : List Ev) :
    run env f guid s (a ++ b) = run env f guid (run env f guid s a) b := by
  simp [run, List.foldl_append]

theorem step_of_returned (env : Env) (f : Flags) (guid : GUID) (s : Sys) (ev : Ev)
    (h : s.pc = .returned) : step env f guid s ev = s := by
  simp [step, h]

theorem run_of_returned (env : Env) (f : Flags) (guid : GUID) (s : Sys) (sched : List Ev)
    (h : s.pc = .returned) : run env f guid s sched = s := by
  induction sched with
  | nil => rfl
  | cons ev rest ih => rw [run_cons, step_of_returned env f guid s ev h, ih]

theorem inv_run (env : Env) (f : Flags) (guid : GUID) (sched : List Ev) :
    ∀ s, Inv s → Inv (run env f guid s sched) := by
  induction sched with
  | nil => intro s h; exact h
  | cons ev rest ih =>
    intro s h
    rw [run_cons]
    exact ih _ (inv_step env f guid s ev h)

theorem closeSucceeded_iff (t : List Effect) : closeSucceeded t ↔ 0 < okCloses t := by
  simp [closeSucceeded, okCloses, List.count_pos_iff]

theorem Inv.closed_iff {s : Sys} (h : Inv s) : closeSucceeded s.trace ↔ s.pc ≠ .sigLoop := by
  rw [closeSucceeded_iff, h.ok_eq]
  by_cases hc : s.pc = .sigLoop <;> simp [hc]

theorem Inv.done_of_returned {s : Sys} (h : Inv s) (hr : s.pc = .returned) : s.cap = .done := by
  have h1 := h.ret_wg hr
  rw [h.wg_eq] at h1
  by_contra hc
  simp [hc] at h1

/-- The only step that makes `main` return is the resumption of `wg.Wait()`
with the counter at zero. -/
theorem step_returned_cases (env : Env) (f : Flags) (guid : GUID) (s : Sys) (ev : Ev)
    (h : (step env f guid s ev).pc = .returned) :
    s.pc = .returned ∨ (s.pc = .wgWait ∧ s.wg = 0) := by
  by_cases hpc : s.pc = .returned
  · exact Or.inl hpc
  · right
    cases ev with
    | signal => simp [step, hpc] at h
    | recv =>
      by_cases hc : s.pc = .sigLoop ∧ s.sigPending = true
      · cases hr : env.closeResult (closeCount s.trace) <;> simp [step, hpc, hc, hr] at h
      · simp [step, hpc, hc] at h
    | wgWait =>
      by_cases hc : s.pc = .wgWait ∧ s.wg = 0
      · exact hc
      · simp [step, hpc, hc] at h
    | capStart =>
      by_cases hc : s.cap = .spawned <;> simp [step, hpc, hc] at h
    | deliver e =>
      by_cases hc : s.cap = .inProcess <;> simp [step, hpc, hc] at h
    | processReturn r =>
      by_cases hc : s.cap = .inProcess <;> simp [step, hpc, hc] at h
    | tick r => simp [step, hpc] at h

/-! ## Claims on the lifecycle -/

/-- C6: in every state the running program reaches, `main` has returned only
if `Close` has returned successfully and the capture goroutine has called
`wg.Done()` (so the counter is zero); and no step makes `main` return from a
state in which only one of the two holds: with `Close` successful but the
capture goroutine not done, or with the capture goroutine done but no
successful `Close`, every step leaves `main` unreturned. Both kinds of state
are reachable. -/
theorem main_returns_only_after_close_and_capture (env : Env) (f : Flags) (guid : GUID)
    (sched : List Ev) (s : Sys) (hs : s = run env f guid init sched) :
    (s.pc = .returned → closeSucceeded s.trace ∧ s.cap = .done ∧ s.wg = 0) ∧
    (∀ ev, (step env f guid s ev).pc = .returned →
      closeSucceeded s.trace ∧ s.cap = .done) ∧
    (closeSucceeded s.trace → s.cap ≠ .done →
      ∀ ev, (step env f guid s ev).pc ≠ .returned) ∧
    (s.cap = .done → ¬ closeSucceeded s.trace →
      ∀ ev, (step env f guid s ev).pc ≠ .returned) ∧
    (closeSucceeded (run envCloseOk f guid init [.signal, .recv, .wgWait]).trace ∧
      (run envCloseOk f guid init [.signal, .recv, .wgWait]).pc = .wgWait) ∧
    ((run envCloseOk f guid init [.capStart, .processReturn none, .wgWait]).cap = .done ∧
      (run envCloseOk f guid init [.capStart, .processReturn none, .wgWait]).pc = .sigLoop) := by
  have hI : Inv s := hs ▸ inv_run env f guid sched init inv_init
  have key : ∀ ev, (step env f guid s ev).pc = .returned →
      closeSucceeded s.trace ∧ s.cap = .done := by
    intro ev hev
    rcases step_returned_cases env f guid s ev hev with hr | ⟨hw, hz⟩
    · exact ⟨hI.closed_iff.mpr (by simp [hr]), hI.done_of_returned hr⟩
    · refine ⟨hI.closed_iff.mpr (by simp [hw]), ?_⟩
      have h1 := hI.wg_eq
      rw [hz] at h1
      by_contra hc
      simp [hc] at h1
  refine ⟨?_, key, ?_, ?_, ?_, ?_⟩
  · intro hr
    exact ⟨hI.closed_iff.mpr (by simp [hr]), hI.done_of_returned hr, hI.ret_wg hr⟩
  · intro _ hcap ev hev
    exact hcap (key ev hev).2
  · intro _ hcl ev hev
    exact hcl (key ev hev).1
  · constructor
    · simp [closeSucceeded, run, step, init, envCloseOk, closeCount]
    · simp [run, step, init, envCloseOk, closeCount]
  · constructor
    · simp [run, step, init, captureEnd]
    · simp [run, step, init, captureEnd]

/-- Instance of C6 at a complete run: interrupt, successful `Close`, capture
goroutine done, `wg.Wait()` resumed. -/
theorem main_returns_only_after_close_and_capture_witness :
    (run envCloseOk sampleFlags "provider" init
        [.capStart, .signal, .recv, .processReturn none, .wgWait]).pc = .returned ∧
    closeSucceeded (run envCloseOk sampleFlags "provider" init
        [.capStart, .signal, .recv, .processReturn none, .wgWait]).trace ∧
    (run envCloseOk sampleFlags "provider" init
        [.capStart, .signal, .recv, .processReturn none, .wgWait]).cap = .done :=
  ⟨by decide,
   ((main_returns_only_after_close_and_capture envCloseOk sampleFlags "provider"
      [.capStart, .signal, .recv, .processReturn none, .wgWait] _ rfl).1 (by decide)).1,
   ((main_returns_only_after_close_and_capture envCloseOk sampleFlags "provider"
      [.capStart, .signal, .recv, .processReturn none, .wgWait] _ rfl).1 (by decide)).2.1⟩

theorem closeBound_step (env : Env) (f : Flags) (guid : GUID) (n : Nat)
    (hfail : ∀ i, i < n → env.closeResult i ≠ none) (hok : env.closeResult n = none)
    (s : Sys) (ev : Ev) (h : CloseBound n s) : CloseBound n (step env f guid s ev) := by
  by_cases hpc : s.pc = .returned
  · rw [step_of_returned env f guid s ev hpc]; exact h
  · unfold CloseBound at h ⊢
    cases ev with
    | signal => simpa [step, hpc] using h
    | recv =>
      by_cases hc : s.pc = .sigLoop ∧ s.sigPending = true
      · simp only [hc.1, if_true] at h
        cases hr : env.closeResult (closeCount s.trace) with
        | none =>
          have hn : closeCount s.trace = n := by
            by_contra hne
            exact hfail _ (by omega) hr
          simp only [step, hpc, hc, hr, if_false, if_true, and_self]
          simp [closeCount_append, closeCount_cons, hn]
        | some err =>
          have hn : closeCount s.trace < n := by
            by_contra hne
            have : closeCount s.trace = n := by omega
            rw [this, hok] at hr
            simp at hr
          simp only [step, hpc, hc, hr, if_false, if_true, and_self]
          simp [closeCount_append, closeCount_cons]
          omega
      · have hs : step env f guid s .recv = s := by simp [step, hpc, hc]
        rw [hs]; exact h
    | wgWait =>
      by_cases hc : s.pc = .wgWait ∧ s.wg = 0
      · simp [hc.1] at h
        simp [step, hpc, hc, closeCount_append, closeCount_cons, h]
      · have hs : step env f guid s .wgWait = s := by simp [step, hpc, hc]
        rw [hs]; exact h
    | capStart =>
      by_cases hc : s.cap = .spawned
      · simpa [step, hpc, hc, closeCount_append, closeCount_cons] using h
      · have hs : step env f guid s .capStart = s := by simp [step, hpc, hc]
        rw [hs]; exact h
    | deliver e =>
      by_cases hc : s.cap = .inProcess
      · simpa [step, hpc, hc, closeCount_append, closeCount_cb] using h
      · have hs : step env f guid s (.deliver e) = s := by simp [step, hpc, hc]
        rw [hs]; exact h
    | processReturn r =>
      by_cases hc : s.cap = .inProcess
      · cases r <;>
          simpa [step, hpc, hc, closeCount_append, closeCount_cons, captureEnd] using h
      · have hs : step env f guid s (.processReturn r) = s := by simp [step, hpc, hc]
        rw [hs]; exact h
    | tick r =>
      cases r <;> simpa [step, hpc, closeCount_append, closeCount_cons, flushBody] using h

theorem closeBound_run (env : Env) (f : Flags) (guid : GUID) (n : Nat)
    (hfail : ∀ i, i < n → env.closeResult i ≠ none) (hok : env.closeResult n = none)
    (sched : List Ev) : ∀ s, CloseBound n s → CloseBound n (run env f guid s sched) := by
  induction sched with
  | nil => intro s h; exact h
  | cons ev rest ih =>
    intro s h
    rw [run_cons]
    exact ih _ (closeBound_step env f guid n hfail hok s ev h)

theorem closeBound_init (n : Nat) : CloseBound n init := by
  simp [CloseBound, init]

/-- Outside the interrupt loop no step calls `Close`, and no step leads back
into the loop. -/
theorem step_outside_loop (env : Env) (f : Flags) (guid : GUID) (s : Sys) (ev : Ev)
    (h : s.pc ≠ .sigLoop) :
    (step env f guid s ev).pc ≠ .sigLoop ∧
    closeCount (step env f guid s ev).trace = closeCount s.trace := by
  by_cases hpc : s.pc = .returned
  · rw [step_of_returned env f guid s ev hpc]; exact ⟨h, rfl⟩
  · cases ev with
    | signal => simp [step, hpc, h]
    | recv => simp [step, hpc, h]
    | wgWait =>
      by_cases hc : s.pc = .wgWait ∧ s.wg = 0
      · simp [step, hpc, hc, closeCount_append, closeCount_cons]
      · simp [step, hpc, hc, h]
    | capStart =>
      by_cases hc : s.cap = .spawned <;>
        simp [step, hpc, hc, h, closeCount_append, closeCount_cons]
    | deliver e =>
      by_cases hc : s.cap = .inProcess <;>
        simp [step, hpc, hc, h, closeCount_append, closeCount_cb]
    | processReturn r =>
      by_cases hc : s.cap = .inProcess <;> cases r <;>
        simp [step, hpc, hc, h, closeCount_append, closeCount_cons, captureEnd]
    | tick r =>
      cases r <;> simp [step, hpc, h, closeCount_append, closeCount_cons, flushBody]

theorem run_outside_loop (env : Env) (f : Flags) (guid : GUID) (sched : List Ev) :
    ∀ s, s.pc ≠ .sigLoop →
      (run env f guid s sched).pc ≠ .sigLoop ∧
      closeCount (run env f guid s sched).trace = closeCount s.trace := by
  induction sched with
  | nil => intro s h; exact ⟨h, rfl⟩
  | cons ev rest ih =>
    intro s h
    rw [run_cons]
    have h1 := step_outside_loop env f guid s ev h
    have h2 := ih _ h1.1
    exact ⟨h2.1, h2.2.trans h1.2⟩

theorem interrupts_succ (k : Nat) :
    interrupts (k + 1) = [Ev.signal, Ev.recv] ++ interrupts k := by
  simp [interrupts, List.replicate_succ]

theorem closeCount_interrupt (env : Env) (f : Flags) (guid : GUID) (s : Sys)
    (h : s.pc = .sigLoop) :
    closeCount (run env f guid s [.signal, .recv]).trace = closeCount s.trace + 1 := by
  have hpc : s.pc ≠ .returned := by simp [h]
  cases hr : env.closeResult (closeCount s.trace) <;>
    simp [run, step, h, hr, closeCount_append, closeCount_cons]

theorem interrupts_leave_loop (env : Env) (f : Flags) (guid : GUID) (n : Nat)
    (hfail : ∀ i, i < n → env.closeResult i ≠ none) (hok : env.closeResult n = none) :
    ∀ (k : Nat) (s : Sys), CloseBound n s → n + 1 ≤ closeCount s.trace + k →
      (run env f guid s (interrupts k)).pc ≠ .sigLoop := by
  intro k
  induction k with
  | zero =>
    intro s hB hk hpc
    simp only [interrupts, List.replicate_zero, List.flatten_nil, run_nil] at hpc
    unfold CloseBound at hB
    simp only [hpc, if_true] at hB
    omega
  | succ k ih =>
    intro s hB hk
    by_cases hpc : s.pc = .sigLoop
    · rw [interrupts_succ, run_append]
      apply ih
      · exact closeBound_run env f guid n hfail hok _ s hB
      · rw [closeCount_interrupt env f guid s hpc]
        omega
    · exact (run_outside_loop env f guid _ s hpc).1

theorem capture_end_returns (env : Env) (f : Flags) (guid : GUID) (s : Sys) (r : GoError)
    (hI : Inv s) (hpc : s.pc ≠ .sigLoop) :
    (run env f guid s [.capStart, .processReturn r, .wgWait]).pc = .returned := by
  have hw := hI.wg_eq
  clear hI
  obtain ⟨pc, cap, sp, wg, tr⟩ := s
  simp only at hw hpc
  cases pc <;> cases cap <;> simp [run, step] at hpc hw ⊢ <;> simp [hw]

theorem chanStep_mono (c : Bool × Nat) (ev : Ev) : c.2 ≤ (chanStep c ev).2 := by
  cases ev <;> simp [chanStep]
  split <;> simp

theorem chanRel_step (env : Env) (f : Flags) (guid : GUID) (n : Nat)
    (hfail : ∀ i, i < n → env.closeResult i ≠ none) (hok : env.closeResult n = none)
    (s : Sys) (c : Bool × Nat) (ev : Ev) (h : ChanRel n s c) :
    ChanRel n (step env f guid s ev) (chanStep c ev) := by
  by_cases hl : s.pc = .sigLoop
  · have hpc : s.pc ≠ .returned := by simp [hl]
    unfold ChanRel at h
    simp only [hl, if_true] at h
    obtain ⟨hp, hc, hn⟩ := h
    cases ev with
    | signal => simp [ChanRel, step, chanStep, hl, hc, hn]
    | recv =>
      cases hsp : s.sigPending with
      | false =>
        have hc1 : c.1 = false := by rw [← hp, hsp]
        simp [ChanRel, step, chanStep, hl, hsp, hc1, hc, hn]
      | true =>
        have hc1 : c.1 = true := by rw [← hp, hsp]
        cases hr : env.closeResult (closeCount s.trace) with
        | none =>
          have hcn : closeCount s.trace = n := by
            by_contra hne
            exact hfail _ (by omega) hr
          simp only [ChanRel, step, hpc, hl, hsp, hr, if_false, if_true, and_self]
          simp [chanStep, hc1, closeCount_append, closeCount_cons]
          omega
        | some err =>
          have hcn : closeCount s.trace < n := by
            by_contra hne
            have : closeCount s.trace = n := by omega
            rw [this, hok] at hr
            simp at hr
          simp only [ChanRel, step, hpc, hl, hsp, hr, if_false, if_true, and_self]
          simp [chanStep, hc1, closeCount_append, closeCount_cons, hc]
          omega
    | wgWait => simp [ChanRel, step, chanStep, hl, hp, hc, hn]
    | capStart =>
      by_cases hcap : s.cap = .spawned <;>
        simp [ChanRel, step, chanStep, hl, hcap, hp, hc, hn, closeCount_append,
          closeCount_cons]
    | deliver e =>
      by_cases hcap : s.cap = .inProcess <;>
        simp [ChanRel, step, chanStep, hl, hcap, hp, hc, hn, closeCount_append,
          closeCount_cb]
    | processReturn r =>
      by_cases hcap : s.cap = .inProcess <;> cases r <;>
        simp [ChanRel, step, chanStep, hl, hcap, hp, hc, hn, closeCount_append,
          closeCount_cons, captureEnd]
    | tick r =>
      cases r <;>
        simp [ChanRel, step, chanStep, hl, hp, hc, hn, closeCount_append,
          closeCount_cons, flushBody]
  · unfold ChanRel at h ⊢
    simp only [hl, if_false] at h
    obtain ⟨h1, h2⟩ := step_outside_loop env f guid s ev hl
    simp only [h1, if_false]
    have := chanStep_mono c ev
    exact ⟨by rw [h2]; exact h.1, by omega⟩

theorem chanRel_run (env : Env) (f : Flags) (guid : GUID) (n : Nat)
    (hfail : ∀ i, i < n → env.closeResult i ≠ none) (hok : env.closeResult n = none)
    (sched : List Ev) :
    ∀ (s : Sys) (c : Bool × Nat), ChanRel n s c →
      ChanRel n (run env f guid s sched) (sched.foldl chanStep c) := by
  induction sched with
  | nil => intro s c h; exact h
  | cons ev rest ih =>
    intro s c h
    rw [run_cons, List.foldl_cons]
    exact ih _ _ (chanRel_step env f guid n hfail hok s c ev h)

theorem chan_le_signals (sched : List Ev) :
    ∀ (c : Bool × Nat),
      (sched.foldl chanStep c).2 + (if (sched.foldl chanStep c).1 then 1 else 0) ≤
        c.2 + (if c.1 then 1 else 0) + signalCount sched := by
  induction sched with
  | nil => intro c; simp [signalCount]
  | cons ev rest ih =>
    intro c
    rw [List.foldl_cons]
    have h := ih (chanStep c ev)
    have hs : (chanStep c ev).2 + (if (chanStep c ev).1 then 1 else 0) + signalCount rest ≤
        c.2 + (if c.1 then 1 else 0) + signalCount (ev :: rest) := by
      obtain ⟨p, k⟩ := c
      cases ev <;> cases p <;> simp [chanStep, signalCount, List.countP_cons]
      all_goals omega
    omega

theorem receivedInterrupts_le_signalCount (sched : List Ev) :
    receivedInterrupts sched ≤ signalCount sched := by
  have h := chan_le_signals sched (false, 0)
  unfold receivedInterrupts
  simp at h
  omega

theorem chanRel_init (n : Nat) : ChanRel n init (false, 0) := by
  simp [ChanRel, init]

/-- C5: when `Close` fails on its first `n` calls and succeeds on call
`n + 1`, then in every state the running program reaches: `Close` has been
called at most `n + 1` times, exactly once for each of the first `n + 1`
interrupts received from `sigCh` under the schedule and never after (so on
no more occasions than interrupts were delivered; each receipt writes the
shutting-down line and makes one call); the close-failure line has
been written once per failed call, so `n` times once the loop is left; the
main goroutine is outside the interrupt loop exactly when call `n + 1` has
been made, which is exactly when a `Close` has succeeded; if `main` has
returned, `Close` was called exactly `n + 1` times, exactly `n` close-failure
lines were written and the process ended with status 0, the only exit status
in the trace; and from every such state, `n + 1` received interrupts followed
by the end of the capture goroutine make `main` return. -/
theorem shutdown_loop_retries_close (env : Env) (f : Flags) (guid : GUID) (n : Nat)
    (hfail : ∀ i, i < n → env.closeResult i ≠ none) (hok : env.closeResult n = none)
    (sched : List Ev) (s : Sys) (hs : s = run env f guid init sched) :
    closeCount s.trace ≤ n + 1 ∧
    closeCount s.trace = min (n + 1) (receivedInterrupts sched) ∧
    closeCount s.trace ≤ signalCount sched ∧
    logCount "[DBG] Shutting the session down" s.trace = closeCount s.trace ∧
    logCount "[ERR] (!!!) Failed to stop session: %s\n" s.trace = min (closeCount s.trace) n ∧
    (s.pc ≠ .sigLoop ↔ closeCount s.trace = n + 1) ∧
    (s.pc ≠ .sigLoop ↔ closeSucceeded s.trace) ∧
    (s.pc = .returned →
      closeCount s.trace = n + 1 ∧
      logCount "[ERR] (!!!) Failed to stop session: %s\n" s.trace = n ∧
      s.trace.getLast? = some (.osExit 0) ∧
      ∀ k, Effect.osExit k ∈ s.trace → k = 0) ∧
    (∀ r, (run env f guid s
        (interrupts (n + 1) ++ [.capStart, .processReturn r, .wgWait])).pc = .returned) := by
  have hI : Inv s := hs ▸ inv_run env f guid sched init inv_init
  have hB : CloseBound n s := hs ▸ closeBound_run env f guid n hfail hok sched init
    (closeBound_init n)
  have hsplit := hI.split_eq
  have hokc := hI.ok_eq
  have hlf := hI.log_fail
  unfold CloseBound at hB
  have hcount : s.pc ≠ .sigLoop ↔ closeCount s.trace = n + 1 := by
    by_cases hpc : s.pc = .sigLoop
    · simp only [hpc, if_true] at hB
      simp [hpc]
      omega
    · simp only [hpc, if_false] at hB
      simp [hpc, hB]
  have hmin : logCount "[ERR] (!!!) Failed to stop session: %s\n" s.trace
      = min (closeCount s.trace) n := by
    by_cases hpc : s.pc = .sigLoop
    · simp only [hpc, if_true] at hB hokc
      omega
    · simp only [hpc, if_false] at hB hokc
      omega
  have hR : ChanRel n s (sched.foldl chanStep (false, 0)) :=
    hs ▸ chanRel_run env f guid n hfail hok sched init (false, 0) (chanRel_init n)
  have hrecv : closeCount s.trace = min (n + 1) (receivedInterrupts sched) := by
    unfold ChanRel at hR
    unfold receivedInterrupts
    by_cases hpc : s.pc = .sigLoop
    · simp only [hpc, if_true] at hR
      omega
    · simp only [hpc, if_false] at hR
      omega
  have hsig : closeCount s.trace ≤ signalCount sched := by
    have := receivedInterrupts_le_signalCount sched
    omega
  refine ⟨?_, hrecv, hsig, hI.log_shut, hmin, hcount, hI.closed_iff.symm, ?_, ?_⟩
  · by_cases hpc : s.pc = .sigLoop
    · simp only [hpc, if_true] at hB
      omega
    · simp only [hpc, if_false] at hB
      omega
  · intro hr
    have hne : s.pc ≠ .sigLoop := by simp [hr]
    have hc := hcount.mp hne
    refine ⟨hc, ?_, hI.ret_last hr, fun k hk => (hI.exit_ret k hk).1⟩
    rw [hmin, hc]
    omega
  · intro r
    rw [run_append]
    apply capture_end_returns
    · exact inv_run env f guid _ s hI
    · apply interrupts_leave_loop env f guid n hfail hok
      · unfold CloseBound; exact hB
      · omega

/-- Instance of C5 for `n = 1`: one close-failure line, then status 0. -/
theorem shutdown_loop_retries_close_witness :
    (∀ i, i < 1 → envCloseFailsOnce.closeResult i ≠ none) ∧
    envCloseFailsOnce.closeResult 1 = none ∧
    (run envCloseFailsOnce sampleFlags "provider" init retryOnceSchedule).trace =
      [.logPrintf "[DBG] Starting to listen ETW events from %s" ["provider"],
       .process,
       .logPrintf "[DBG] Shutting the session down" [],
       .close (some "session busy"),
       .logPrintf "[ERR] (!!!) Failed to stop session: %s\n" ["session busy"],
       .logPrintf "[DBG] Shutting the session down" [],
       .close none,
       .logPrintf "[DBG] Successfully shut down" [],
       .osExit 0] ∧
    receivedInterrupts retryOnceSchedule = 2 ∧
    signalCount retryOnceSchedule = 2 ∧
    (closeCount (run envCloseFailsOnce sampleFlags "provider" init retryOnceSchedule).trace
        = 1 + 1 ∧
      logCount "[ERR] (!!!) Failed to stop session: %s\n"
        (run envCloseFailsOnce sampleFlags "provider" init retryOnceSchedule).trace = 1 ∧
      (run envCloseFailsOnce sampleFlags "provider" init
        retryOnceSchedule).trace.getLast? = some (.osExit 0) ∧
      ∀ k, Effect.osExit k ∈
        (run envCloseFailsOnce sampleFlags "provider" init retryOnceSchedule).trace → k = 0) :=
  ⟨by decide, rfl, by decide, by decide, by decide,
   (shutdown_loop_retries_close envCloseFailsOnce sampleFlags "provider" 1 (by decide) rfl
      retryOnceSchedule _ rfl).2.2.2.2.2.2.2.1 (by decide)⟩

theorem flush_step (env : Env) (f : Flags) (guid : GUID) (s : Sys) (ev : Ev)
    (hpc : s.pc ≠ .returned) :
    flushCount (step env f guid s ev).trace = flushCount s.trace + tickCount [ev] ∧
    logCount "[ERR] Failed to flush events: %s" (step env f guid s ev).trace =
      logCount "[ERR] Failed to flush events: %s" s.trace + failedTickCount [ev] := by
  cases ev with
  | signal => simp [step, hpc, tickCount, failedTickCount]
  | recv =>
    by_cases hc : s.pc = .sigLoop ∧ s.sigPending = true
    · cases hr : env.closeResult (closeCount s.trace) <;>
        simp [step, hpc, hc, hr, tickCount, failedTickCount, flushCount_append,
          flushCount_cons, logCount_append, logCount_cons]
    · simp [step, hpc, hc, tickCount, failedTickCount]
  | wgWait =>
    by_cases hc : s.pc = .wgWait ∧ s.wg = 0 <;>
      simp [step, hpc, hc, tickCount, failedTickCount, flushCount_append,
        flushCount_cons, logCount_append, logCount_cons]
  | capStart =>
    by_cases hc : s.cap = .spawned <;>
      simp [step, hpc, hc, tickCount, failedTickCount, flushCount_append,
        flushCount_cons, logCount_append, logCount_cons]
  | deliver e =>
    by_cases hc : s.cap = .inProcess <;>
      simp [step, hpc, hc, tickCount, failedTickCount, flushCount_append,
        flushCount_cb, logCount_append, logCount_cb]
  | processReturn r =>
    by_cases hc : s.cap = .inProcess <;> cases r <;>
      simp [step, hpc, hc, tickCount, failedTickCount, flushCount_append,
        flushCount_cons, logCount_append, logCount_cons, captureEnd]
  | tick r =>
    cases r <;>
      simp [step, hpc, tickCount, failedTickCount, flushCount_append,
        flushCount_cons, logCount_append, logCount_cons, flushBody]

theorem tickCount_cons (ev : Ev) (sched : List Ev) :
    tickCount (ev :: sched) = tickCount [ev] + tickCount sched := by
  simp [tickCount, List.countP_cons, Nat.add_comm]

theorem failedTickCount_cons (ev : Ev) (sched : List Ev) :
    failedTickCount (ev :: sched) = failedTickCount [ev] + failedTickCount sched := by
  simp [failedTickCount, List.countP_cons, Nat.add_comm]

theorem flush_run (env : Env) (f : Flags) (guid : GUID) (sched : List Ev) :
    ∀ s, (run env f guid s sched).pc ≠ .returned →
      flushCount (run env f guid s sched).trace = flushCount s.trace + tickCount sched ∧
      logCount "[ERR] Failed to flush events: %s" (run env f guid s sched).trace =
        logCount "[ERR] Failed to flush events: %s" s.trace + failedTickCount sched := by
  induction sched with
  | nil => intro s _; simp [run, tickCount, failedTickCount]
  | cons ev rest ih =>
    intro s h
    have hpc : s.pc ≠ .returned := by
      intro hc
      rw [run_of_returned env f guid s _ hc] at h
      exact h hc
    rw [run_cons] at h ⊢
    obtain ⟨h1, h2⟩ := ih _ h
    obtain ⟨h3, h4⟩ := flush_step env f guid s ev hpc
    have h5 := tickCount_cons ev rest
    have h6 := failedTickCount_cons ev rest
    rw [h1, h2, h3, h4]
    omega

theorem run_ticks (env : Env) (f : Flags) (guid : GUID) (rs : List GoError) :
    ∀ s, s.pc ≠ .returned →
      run env f guid s (rs.map .tick) =
        { s with trace := s.trace ++ rs.flatMap flushBody } := by
  induction rs with
  | nil => intro s _; simp [run]
  | cons r rest ih =>
    intro s hpc
    rw [List.map_cons, run_cons]
    have hs : step env f guid s (.tick r) = { s with trace := s.trace ++ flushBody r } := by
      simp [step, hpc]
    rw [hs, ih _ (by simpa using hpc)]
    simp [List.append_assoc]

theorem flushCount_flushBodies (rs : List GoError) :
    flushCount (rs.flatMap flushBody) = rs.length ∧
    logCount "[ERR] Failed to flush events: %s" (rs.flatMap flushBody) =
      (rs.filter Option.isSome).length := by
  induction rs with
  | nil => simp
  | cons r rest ih =>
    cases r <;>
      simp [List.flatMap_cons, flushCount_append, logCount_append, flushCount_cons,
        logCount_cons, flushBody, ih.1, ih.2]

/-- C8: while the process is alive, for every sequence of flush results on
consecutive wake-ups of the flush goroutine, the goroutine appends for each
wake-up one `FlushEvents` call, followed by one log call exactly when the
call failed; so `n` results give `n` calls and as many log lines as failures,
the rest of the state is untouched, and the next wake-up issues a call again
whatever came before. Counted from the start of the program under any
interleaving with the other activities, the `FlushEvents` calls are as many
as the wake-ups and the flush-failure lines as many as the failing wake-ups.
After three failures there are three lines and the fourth wake-up still
calls `FlushEvents`. -/
theorem flush_loop_one_call_per_tick (env : Env) (f : Flags) (guid : GUID)
    (sched : List Ev) (rs : List GoError) (s : Sys)
    (hs : s = run env f guid init sched) (alive : s.pc ≠ .returned) :
    run env f guid s (rs.map .tick) = { s with trace := s.trace ++ rs.flatMap flushBody } ∧
    flushCount (run env f guid s (rs.map .tick)).trace = flushCount s.trace + rs.length ∧
    logCount "[ERR] Failed to flush events: %s" (run env f guid s (rs.map .tick)).trace =
      logCount "[ERR] Failed to flush events: %s" s.trace +
        (rs.filter Option.isSome).length ∧
    (∀ r, flushCount (step env f guid (run env f guid s (rs.map .tick)) (.tick r)).trace =
      flushCount (run env f guid s (rs.map .tick)).trace + 1) ∧
    (flushCount s.trace = tickCount sched ∧
      logCount "[ERR] Failed to flush events: %s" s.trace = failedTickCount sched) ∧
    (∀ (a b c : String) (r4 : GoError),
      (run env f guid s [.tick (some a), .tick (some b), .tick (some c), .tick r4]).trace =
        s.trace ++
          [.flushEvents (some a), .logPrintf "[ERR] Failed to flush events: %s" [a],
           .flushEvents (some b), .logPrintf "[ERR] Failed to flush events: %s" [b],
           .flushEvents (some c), .logPrintf "[ERR] Failed to flush events: %s" [c],
           .flushEvents r4] ++
          (match r4 with
           | some d => [.logPrintf "[ERR] Failed to flush events: %s" [d]]
           | none => [])) := by
  have hrun := run_ticks env f guid rs s alive
  have hcnt := flushCount_flushBodies rs
  refine ⟨hrun, ?_, ?_, ?_, ?_, ?_⟩
  · rw [hrun]
    simp [flushCount_append, hcnt.1]
  · rw [hrun]
    simp [logCount_append, hcnt.2]
  · intro r
    have h := (flush_step env f guid (run env f guid s (rs.map .tick)) (.tick r)
      (by rw [hrun]; exact alive)).1
    rw [h]
    simp [tickCount]
  · have h := flush_run env f guid sched init (hs ▸ alive)
    rw [← hs] at h
    simpa [init] using h
  · intro a b c r4
    cases r4 <;> simp [run, step, alive, flushBody]

/-- Instance of C8 at the start of the program: three failing wake-ups. -/
theorem flush_loop_one_call_per_tick_witness :
    init.pc ≠ .returned ∧
    flushCount (run envCloseOk sampleFlags "provider" init
      ([some "e1", some "e2", some "e3"].map .tick)).trace = flushCount init.trace + 3 ∧
    logCount "[ERR] Failed to flush events: %s" (run envCloseOk sampleFlags "provider" init
      ([some "e1", some "e2", some "e3"].map .tick)).trace =
      logCount "[ERR] Failed to flush events: %s" init.trace +
        ([some "e1", some "e2", some "e3"].filter Option.isSome).length :=
  ⟨by decide,
   (flush_loop_one_call_per_tick envCloseOk sampleFlags "provider" []
      [some "e1", some "e2", some "e3"] init rfl (by decide)).2.1,
   (flush_loop_one_call_per_tick envCloseOk sampleFlags "provider" []
      [some "e1", some "e2", some "e3"] init rfl (by decide)).2.2.1⟩

/-- C7, as the claim states it, fails: after the successful `Close` the flush
goroutine, woken while `main` waits for the capture goroutine, calls
`FlushEvents` once more; and a capture goroutine scheduled only after the
successful `Close` still enters `Process`. -/
theorem flush_after_successful_close :
    closeSucceeded
      (run envCloseOk sampleFlags "provider" init [.capStart, .signal, .recv]).trace ∧
    (run envCloseOk sampleFlags "provider" init [.capStart, .signal, .recv]).pc = .wgWait ∧
    (run envCloseOk sampleFlags "provider" init
        [.capStart, .signal, .recv, .tick (some "session closed")]).trace =
      [.logPrintf "[DBG] Starting to listen ETW events from %s" ["provider"], .process,
       .logPrintf "[DBG] Shutting the session down" [], .close none,
       .flushEvents (some "session closed"),
       .logPrintf "[ERR] Failed to flush events: %s" ["session closed"]] ∧
    (run envCloseOk sampleFlags "provider" init [.signal, .recv, .capStart]).trace =
      [.logPrintf "[DBG] Shutting the session down" [], .close none,
       .logPrintf "[DBG] Starting to listen ETW events from %s" ["provider"], .process] := by
  decide

/-- C7, amended: in every state the running program reaches, `Close` has
succeeded at most once and `Process` has been entered at most once; after a
successful `Close` no schedule makes the main goroutine call `Close` again;
once `main` has returned no step has any effect; but `Close` does not stop
the flush goroutine: as long as `main` has not returned, also after a
successful `Close`, a wake-up of the flush goroutine performs one more
`FlushEvents` call. -/
theorem no_close_after_success_flush_continues (env : Env) (f : Flags) (guid : GUID)
    (sched : List Ev) (s : Sys) (hs : s = run env f guid init sched) :
    okCloses s.trace ≤ 1 ∧
    processCount s.trace ≤ 1 ∧
    (closeSucceeded s.trace →
      ∀ sched2, closeCount (run env f guid s sched2).trace = closeCount s.trace) ∧
    (s.pc = .returned → ∀ sched2, run env f guid s sched2 = s) ∧
    (s.pc ≠ .returned → ∀ r,
      (step env f guid s (.tick r)).trace = s.trace ++ flushBody r ∧
      flushCount (step env f guid s (.tick r)).trace = flushCount s.trace + 1) := by
  have hI : Inv s := hs ▸ inv_run env f guid sched init inv_init
  refine ⟨?_, ?_, ?_, ?_, ?_⟩
  · rw [hI.ok_eq]; split <;> omega
  · rw [hI.proc_eq]; split <;> omega
  · intro hc sched2
    exact (run_outside_loop env f guid sched2 s (hI.closed_iff.mp hc)).2
  · intro hr sched2
    exact run_of_returned env f guid s sched2 hr
  · intro hpc r
    refine ⟨by simp [step, hpc], ?_⟩
    rw [(flush_step env f guid s (.tick r) hpc).1]
    simp [tickCount]

/-- Instance of the amended C7 in the state after a successful `Close`, with
`main` waiting for the capture goroutine. -/
theorem no_close_after_success_flush_continues_witness :
    (run envCloseOk sampleFlags "provider" init [.capStart, .signal, .recv]).pc ≠ .returned ∧
    closeSucceeded
      (run envCloseOk sampleFlags "provider" init [.capStart, .signal, .recv]).trace ∧
    ∀ r, flushCount (step envCloseOk sampleFlags "provider"
        (run envCloseOk sampleFlags "provider" init [.capStart, .signal, .recv])
        (.tick r)).trace =
      flushCount
        (run envCloseOk sampleFlags "provider" init [.capStart, .signal, .recv]).trace + 1 :=
  ⟨by decide, by decide,
   fun r => ((no_close_after_success_flush_continues envCloseOk sampleFlags "provider"
      [.capStart, .signal, .recv] _ rfl).2.2.2.2 (by decide) r).2⟩

theorem not_mem_of_openCount_zero {t : List Effect} (h : openCount t = 0) (g : GUID) :
    Effect.newSession g ∉ t := by
  unfold openCount at h
  rw [List.countP_eq_zero] at h
  intro hm
  have := h _ hm
  simp at this

theorem startup_bad_count (env : Env) (f : Flags) (hn : f.args.length ≠ 1) :
    startup env f =
      ([.logPrintf "Usage: %s [opts] <providerGUID>" [env.progName], .osExit 1], none) := by
  unfold startup
  rw [if_pos hn]
  rfl

theorem startup_bad_guid (env : Env) (f : Flags) (err : String) (hn : f.args.length = 1)
    (hp : env.parseGUID (f.args.headD "") = .error err) :
    startup env f =
      ((if f.silent then [Effect.logSetOutputDiscard] else []) ++
         [.guidFromString (f.args.headD "")] ++
         [.logPrintf "Incorrect GUID given; %s" [err], .osExit 1], none) := by
  unfold startup
  rw [if_neg (not_not.mpr hn)]
  simp only [hp]
  rfl

theorem startup_open_failed (env : Env) (f : Flags) (g : GUID) (err : String)
    (hn : f.args.length = 1) (hp : env.parseGUID (f.args.headD "") = .ok g)
    (ho : env.newSession g = some err) :
    startup env f =
      ((if f.silent then [Effect.logSetOutputDiscard] else []) ++
         [.guidFromString (f.args.headD ""), .newSession g] ++
         [.logPrintf "Failed to create etw session; %s" [err], .osExit 1], none) := by
  unfold startup
  rw [if_neg (not_not.mpr hn)]
  simp only [hp, ho]
  rfl

theorem startup_ok (env : Env) (f : Flags) (g : GUID)
    (hn : f.args.length = 1) (hp : env.parseGUID (f.args.headD "") = .ok g)
    (ho : env.newSession g = none) :
    startup env f =
      ((if f.silent then [Effect.logSetOutputDiscard] else []) ++
         [.guidFromString (f.args.headD ""), .newSession g], some g) := by
  unfold startup
  rw [if_neg (not_not.mpr hn)]
  simp only [hp, ho]

theorem open_follows_parse (env : Env) :
    ∀ (f2 : Flags) (sched2 : List Ev) (g : GUID),
    Effect.newSession g ∈ mainParsed env f2 sched2 →
      f2.args.length = 1 ∧ env.parseGUID (f2.args.headD "") = .ok g ∧
      ∃ pre post, mainParsed env f2 sched2 =
        pre ++ [.guidFromString (f2.args.headD ""), .newSession g] ++ post := by
  intro f2 sched2 g hg
  by_cases hn : f2.args.length = 1
  · cases hp : env.parseGUID (f2.args.headD "") with
    | error err =>
      unfold mainParsed at hg
      rw [startup_bad_guid env f2 err hn hp] at hg
      cases hsil : f2.silent <;> simp [hsil] at hg
    | ok g2 =>
      cases ho : env.newSession g2 with
      | some err =>
        have ht : mainParsed env f2 sched2 =
            (if f2.silent then [Effect.logSetOutputDiscard] else []) ++
            [.guidFromString (f2.args.headD ""), .newSession g2] ++
            [.logPrintf "Failed to create etw session; %s" [err], .osExit 1] := by
          unfold mainParsed
          rw [startup_open_failed env f2 g2 err hn hp ho]
        have hg2 : g = g2 := by
          rw [ht] at hg
          cases hsil : f2.silent <;> simpa [hsil] using hg
        subst hg2
        exact ⟨hn, rfl, _, _, ht⟩
      | none =>
        have ht : mainParsed env f2 sched2 =
            (if f2.silent then [Effect.logSetOutputDiscard] else []) ++
            [.guidFromString (f2.args.headD ""), .newSession g2] ++
            (run env f2 g2 init sched2).trace := by
          unfold mainParsed
          rw [startup_ok env f2 g2 hn hp ho]
        have hI := inv_run env f2 g2 sched2 init inv_init
        have hno := not_mem_of_openCount_zero hI.no_open g
        have hg2 : g = g2 := by
          rw [ht] at hg
          cases hsil : f2.silent <;> simpa [hsil, hno] using hg
        subst hg2
        exact ⟨hn, rfl, _, _, ht⟩
  · unfold mainParsed at hg
    rw [startup_bad_count env f2 hn] at hg
    simp at hg

theorem fatal_after_parse (env : Env) (f : Flags) (sched : List Ev)
    (hbad : f.args.length ≠ 1 ∨
      (∃ err, env.parseGUID (f.args.headD "") = .error err) ∨
      (∃ g err, env.parseGUID (f.args.headD "") = .ok g ∧ env.newSession g = some err)) :
    (∃ pre fmt args, mainParsed env f sched = pre ++ [.logPrintf fmt args, .osExit 1] ∧
      (∀ k, Effect.osExit k ∉ pre) ∧ logCalls pre = []) ∧
    mainParsed env f sched = (startup env f).1 ∧
    flushCount (mainParsed env f sched) = 0 ∧
    processCount (mainParsed env f sched) = 0 ∧
    closeCount (mainParsed env f sched) = 0 ∧
    records (mainParsed env f sched) = [] ∧
    (f.args.length ≠ 1 → mainParsed env f sched =
      [.logPrintf "Usage: %s [opts] <providerGUID>" [env.progName], .osExit 1]) ∧
    (∀ err, f.args.length = 1 → env.parseGUID (f.args.headD "") = .error err →
      ∀ g, Effect.newSession g ∉ mainParsed env f sched) ∧
    (∀ (f2 : Flags) (sched2 : List Ev) (g : GUID),
      Effect.newSession g ∈ mainParsed env f2 sched2 →
        f2.args.length = 1 ∧ env.parseGUID (f2.args.headD "") = .ok g ∧
        ∃ pre post, mainParsed env f2 sched2 =
          pre ++ [.guidFromString (f2.args.headD ""), .newSession g] ++ post) := by
  have hgen := open_follows_parse env
  by_cases hn : f.args.length = 1
  · cases hp : env.parseGUID (f.args.headD "") with
    | error err =>
      have hst := startup_bad_guid env f err hn hp
      have ht : mainParsed env f sched =
          ((if f.silent then [Effect.logSetOutputDiscard] else []) ++
            [.guidFromString (f.args.headD "")]) ++
          [.logPrintf "Incorrect GUID given; %s" [err], .osExit 1] := by
        unfold mainParsed
        rw [hst]
      have hst1 : mainParsed env f sched = (startup env f).1 := by
        rw [ht, hst]
      refine ⟨⟨_, _, _, ht, ?_, ?_⟩, hst1, ?_, ?_, ?_, ?_, ?_, ?_, hgen⟩
      · intro k; cases f.silent <;> simp
      · cases f.silent <;> simp [logCalls]
      · rw [ht]; cases f.silent <;> simp [flushCount]
      · rw [ht]; cases f.silent <;> simp [processCount]
      · rw [ht]; cases f.silent <;> simp [closeCount]
      · rw [ht]; cases f.silent <;> simp [records]
      · intro h; exact absurd hn h
      · intro _ _ _ g
        rw [ht]; cases f.silent <;> simp
    | ok g =>
      have hopen : ∃ err, env.newSession g = some err := by
        rcases hbad with h | ⟨err, h⟩ | ⟨g2, err, h1, h2⟩
        · exact absurd hn h
        · rw [hp] at h; simp at h
        · rw [hp] at h1
          simp only [Except.ok.injEq] at h1
          subst h1
          exact ⟨err, h2⟩
      obtain ⟨err, ho⟩ := hopen
      have hst := startup_open_failed env f g err hn hp ho
      have ht : mainParsed env f sched =
          ((if f.silent then [Effect.logSetOutputDiscard] else []) ++
            [.guidFromString (f.args.headD ""), .newSession g]) ++
          [.logPrintf "Failed to create etw session; %s" [err], .osExit 1] := by
        unfold mainParsed
        rw [hst]
      have hst1 : mainParsed env f sched = (startup env f).1 := by
        rw [ht, hst]
      refine ⟨⟨_, _, _, ht, ?_, ?_⟩, hst1, ?_, ?_, ?_, ?_, ?_, ?_, hgen⟩
      · intro k; cases f.silent <;> simp
      · cases f.silent <;> simp [logCalls]
      · rw [ht]; cases f.silent <;> simp [flushCount]
      · rw [ht]; cases f.silent <;> simp [processCount]
      · rw [ht]; cases f.silent <;> simp [closeCount]
      · rw [ht]; cases f.silent <;> simp [records]
      · intro h; exact absurd hn h
      · intro err2 _ h2
        simp at h2
  · have hst := startup_bad_count env f hn
    have ht : mainParsed env f sched =
        [] ++ [.logPrintf "Usage: %s [opts] <providerGUID>" [env.progName], .osExit 1] := by
      unfold mainParsed
      rw [hst]
      rfl
    have hst1 : mainParsed env f sched = (startup env f).1 := by
      rw [ht, hst]
      rfl
    refine ⟨⟨_, _, _, ht, ?_, ?_⟩, hst1, ?_, ?_, ?_, ?_, ?_, ?_, hgen⟩
    · intro k; simp
    · simp [logCalls]
    · rw [ht]; simp [flushCount]
    · rw [ht]; simp [processCount]
    · rw [ht]; simp [closeCount]
    · rw [ht]; simp [records]
    · intro _; simpa using ht
    · intro _ h; exact absurd h hn

/-- C9, as the claim states it, fails: on the command line `tracer -h`, which
has no positional argument, the process ends inside `flag.Parse()` with the
usage text and exit status 0; no log call is made and no exit status other
than 0 occurs. -/
theorem help_flag_exits_with_status_zero :
    mainTrace envCloseOk .help [.tick none, .signal, .recv] = [.flagUsage, .osExit 0] ∧
    logCalls (mainTrace envCloseOk .help [.tick none, .signal, .recv]) = [] ∧
    (∀ k, Effect.osExit k ∈ mainTrace envCloseOk .help [.tick none, .signal, .recv] →
      k = 0) := by
  refine ⟨rfl, rfl, ?_⟩
  intro k hk
  simpa [mainTrace] using hk

/-- C9, amended: when start-up does not succeed, under every schedule the
process ends before any capture begins, with no `FlushEvents`, `Process` or
`Close` call and no record, and its trace ends with its only exit. When
`flag.Parse()` has returned and the number of positional arguments is not
one, or the argument does not parse as a GUID, or the session cannot be
opened, the trace is that of start-up alone and ends with one log call (the
fatal message handed to the standard logger, the only log call of the run)
followed by exit with status 1; with a wrong argument count not even the GUID
is parsed, with an unparsable GUID no session is opened. When `flag.Parse()`
does not return, the process ends inside it: with the usage text and status
0 on a request for help, with the error, the usage text and status 2 on any
other parse error. For every command line, a `NewSession` call in the trace
comes right after the `GUIDFromString` call and is made on the GUID that
call returned. -/
theorem startup_failure_is_fatal (env : Env) (p : ParseOutcome) (sched : List Ev)
    (hbad : ∀ f, p = .returned f →
      (f.args.length ≠ 1 ∨
        (∃ err, env.parseGUID (f.args.headD "") = .error err) ∨
        (∃ g err, env.parseGUID (f.args.headD "") = .ok g ∧ env.newSession g = some err))) :
    (∀ f, p = .returned f →
      (∃ pre fmt args, mainTrace env p sched = pre ++ [.logPrintf fmt args, .osExit 1] ∧
        (∀ k, Effect.osExit k ∉ pre) ∧ logCalls pre = []) ∧
      mainTrace env p sched = (startup env f).1 ∧
      (f.args.length ≠ 1 → mainTrace env p sched =
        [.logPrintf "Usage: %s [opts] <providerGUID>" [env.progName], .osExit 1]) ∧
      (∀ err, f.args.length = 1 → env.parseGUID (f.args.headD "") = .error err →
        ∀ g, Effect.newSession g ∉ mainTrace env p sched)) ∧
    (p = .help → mainTrace env p sched = [.flagUsage, .osExit 0]) ∧
    (∀ msg, p = .failed msg →
      mainTrace env p sched = [.flagError msg, .flagUsage, .osExit 2]) ∧
    (∃ pre k, mainTrace env p sched = pre ++ [.osExit k] ∧ ∀ j, Effect.osExit j ∉ pre) ∧
    flushCount (mainTrace env p sched) = 0 ∧
    processCount (mainTrace env p sched) = 0 ∧
    closeCount (mainTrace env p sched) = 0 ∧
    records (mainTrace env p sched) = [] ∧
    (∀ (p2 : ParseOutcome) (sched2 : List Ev) (g : GUID),
      Effect.newSession g ∈ mainTrace env p2 sched2 →
        ∃ f2, p2 = .returned f2 ∧ f2.args.length = 1 ∧
          env.parseGUID (f2.args.headD "") = .ok g ∧
          ∃ pre post, mainTrace env p2 sched2 =
            pre ++ [.guidFromString (f2.args.headD ""), .newSession g] ++ post) := by
  have hgen : ∀ (p2 : ParseOutcome) (sched2 : List Ev) (g : GUID),
      Effect.newSession g ∈ mainTrace env p2 sched2 →
        ∃ f2, p2 = .returned f2 ∧ f2.args.length = 1 ∧
          env.parseGUID (f2.args.headD "") = .ok g ∧
          ∃ pre post, mainTrace env p2 sched2 =
            pre ++ [.guidFromString (f2.args.headD ""), .newSession g] ++ post := by
    intro p2 sched2 g hg
    cases p2 with
    | help => simp [mainTrace] at hg
    | failed msg => simp [mainTrace] at hg
    | returned f2 =>
      obtain ⟨h1, h2, h3⟩ := open_follows_parse env f2 sched2 g hg
      exact ⟨f2, rfl, h1, h2, h3⟩
  cases p with
  | help =>
    refine ⟨?_, fun _ => rfl, ?_, ⟨[.flagUsage], 0, rfl, by simp⟩, rfl, rfl, rfl, rfl, hgen⟩
    · intro f hf; cases hf
    · intro msg hm; cases hm
  | failed msg =>
    refine ⟨?_, ?_, ?_, ⟨[.flagError msg, .flagUsage], 2, rfl, by simp⟩, rfl, rfl, rfl, rfl,
      hgen⟩
    · intro f hf; cases hf
    · intro hh; cases hh
    · intro m hm
      cases hm
      rfl
  | returned f =>
    obtain ⟨⟨pre, fmt, args, ht, hpre, hlog⟩, hst, hfl, hpr, hcl, hrec, huse, hnog, _⟩ :=
      fatal_after_parse env f sched (hbad f rfl)
    have hmp : mainTrace env (.returned f) sched = mainParsed env f sched := rfl
    refine ⟨?_, ?_, ?_, ⟨pre ++ [.logPrintf fmt args], 1, ?_, ?_⟩, ?_, ?_, ?_, ?_, hgen⟩
    · intro f2 hf
      cases hf
      exact ⟨⟨pre, fmt, args, ht, hpre, hlog⟩, hst, huse, hnog⟩
    · intro hh; cases hh
    · intro m hm; cases hm
    · rw [hmp, ht]; simp
    · intro j hj
      simp only [List.mem_append, List.mem_singleton] at hj
      rcases hj with hj | hj
      · exact hpre j hj
      · cases hj
    · rw [hmp]; exact hfl
    · rw [hmp]; exact hpr
    · rw [hmp]; exact hcl
    · rw [hmp]; exact hrec

/-- Instance of the amended C9 at a command line whose one argument is not a
GUID, with interrupts and wake-ups scheduled in vain. -/
theorem startup_failure_is_fatal_witness :
    (∀ f, ParseOutcome.returned sampleFlags = .returned f →
      (f.args.length ≠ 1 ∨
        (∃ err, envBadGuid.parseGUID (f.args.headD "") = .error err) ∨
        (∃ g err, envBadGuid.parseGUID (f.args.headD "") = .ok g ∧
          envBadGuid.newSession g = some err))) ∧
    mainTrace envBadGuid (.returned sampleFlags) [.tick none, .signal, .recv] =
      [.guidFromString "provider", .logPrintf "Incorrect GUID given; %s" ["invalid GUID"],
       .osExit 1] ∧
    flushCount (mainTrace envBadGuid (.returned sampleFlags) [.tick none, .signal, .recv])
      = 0 :=
  ⟨fun _ _ => Or.inr (Or.inl ⟨"invalid GUID", rfl⟩), by decide,
   (startup_failure_is_fatal envBadGuid (.returned sampleFlags) [.tick none, .signal, .recv]
      (fun _ _ => Or.inr (Or.inl ⟨"invalid GUID", rfl⟩))).2.2.2.2.1⟩

end Tracer

